import Mathlib

/-! The shortener service and HTTP handler of url_shortener.

A shallow embedding of `pkg/shortener` (`shortener_mysql.go`, `httpserver.go`).

* `time.Time` is an instant on the wall-clock line and `time.Duration` a signed
  number of nanoseconds; both are integers here, `now.Add(ttl)` is `now + ttl`
  and `now.After(e)` is `e < now`.
* The table `short_urls` is the list of its rows.  An `INSERT` is rejected with
  MySQL error 1062 when the primary key `short_url` is already present and
  otherwise appends the row; the columns `created_at` and `expire_at` are
  declared `DATETIME` by `Migrations` and keep whole seconds, so the instants
  passed are stored rounded to the nearest second.  A
  `SELECT ... where short_url = ?` returns the rows with that key, as stored.
* Driver faults (a failing `PrepareContext`, `ExecContext`, `QueryContext` or
  `Scan`) are inputs of each call.
* The random generator `randomStringFn` is an input as well: the string it
  returns on its `i`-th call for a requested length.
-/

set_option autoImplicit false

namespace Shortener

/-! ## Data model -/

/-- An instant (`time.Time`), in nanoseconds. -/
abbrev Time := Int

/-- A `time.Duration`, in nanoseconds. -/
abbrev Duration := Int

/-- One row of the table `short_urls`. -/
structure ShortLink where
  short_url : String
  long_url : String
  created_at : Time
  expire_at : Option Time
  deriving DecidableEq, Repr

/-- An error value coming back from `database/sql`.  `mysqlNumber` is `some n`
when `errors.As` finds a `*mysql.MySQLError` in it, with `Number = n`. -/
structure DbError where
  mysqlNumber : Option Nat
  text : String
  deriving DecidableEq, Repr

/-- The error MySQL answers to an insert whose primary key exists (ER_DUP_ENTRY). -/
def duplicateEntry : DbError :=
  { mysqlNumber := some 1062, text := "Error 1062 (23000): Duplicate entry" }

/-- What a `DATETIME` column (no fractional digits) keeps of an instant: the
driver sends it with its fraction of a second and MySQL rounds that to the
precision of the column, so the nearest whole second, a half rounding up. -/
def datetime (t : Time) : Time := (t + 500000000) / 1000000000 * 1000000000

/-- The row of `short_urls` that holds the values of an insert: `created_at`
and `expire_at` are the `DATETIME` columns of `Migrations`. -/
def storedRow (row : ShortLink) : ShortLink :=
  { row with
    created_at := datetime row.created_at
    expire_at := row.expire_at.map datetime }

/-- The statement `INSERT INTO short_urls (...) VALUES (?, ?, ?, ?)` run by
`stmt.ExecContext`: with a driver fault the error comes back and the table is
left alone; otherwise the primary key decides, and an accepted row is stored. -/
def execInsert (fault : Option DbError) (table : List ShortLink) (row : ShortLink) :
    Option DbError × List ShortLink :=
  match fault with
  | some e => (some e, table)
  | none =>
    if table.any (fun r => r.short_url == row.short_url) then
      (some duplicateEntry, table)
    else
      (none, table ++ [storedRow row])

/-- The statement `SELECT long_url, expire_at FROM short_urls where short_url = ?`. -/
def querySelect (table : List ShortLink) (shortUrl : String) : List ShortLink :=
  table.filter (fun r => r.short_url == shortUrl)

/-! ## The service (`shortener_mysql.go`) -/

/-- The fields of `mysqlShortenerService` other than the connection.
`randomStringFn i n` is what the generator returns on its `i`-th call (from 0)
within one operation when asked for `n` characters. -/
structure mysqlShortenerService where
  shortUrlLength : Int
  randomStringFn : Nat → Int → String

/-- Driver faults met by one `GenerateShortUrl`: of `PrepareContext`, and of the
`i`-th `ExecContext` (from 0). -/
structure InsertFaults where
  prepare : Option DbError
  exec : Nat → Option DbError

/-- Driver faults met by one `GetLongUrl`: of `PrepareContext`, of
`QueryContext`, and of the `Scan` of the `i`-th result row. -/
structure SelectFaults where
  prepare : Option DbError
  query : Option DbError
  scan : Nat → Option DbError

/-- No fault at all. -/
def InsertFaults.none : InsertFaults := { prepare := Option.none, exec := fun _ => Option.none }

/-- No fault at all. -/
def SelectFaults.none : SelectFaults :=
  { prepare := Option.none, query := Option.none, scan := fun _ => Option.none }

def maxInsertTries : Nat := 5

/-- What one `GenerateShortUrl` did: the two values it returns, the table it
leaves, and its calls of the generator and of `ExecContext`. -/
structure GenerateRun where
  token : String
  err : Option String
  table : List ShortLink
  generatorCalls : Nat
  inserts : List ShortLink
  deriving DecidableEq, Repr

/-- Text of `%w` for the error kept in `err`. -/
def errText : Option DbError → String
  | some e => e.text
  | none => "%!w(<nil>)"

/-- The `for` loop of `GenerateShortUrl`.  `fuel` bounds the iterations; the
loop itself stops once `tries > maxInsertTries`. -/
def GenerateShortUrl.loop (s : mysqlShortenerService) (faults : InsertFaults)
    (now : Time) (longUrl : String) (expire : Option Time) :
    Nat → Nat → Option DbError → GenerateRun → Option GenerateRun
  | 0, _, _, _ => none
  | fuel + 1, tries, err, st =>
    if tries > maxInsertTries then
      some { st with
        token := ""
        err := some ("after " ++ toString tries ++ " tries still have error: " ++ errText err) }
    else
      let shortUrl := s.randomStringFn st.generatorCalls s.shortUrlLength
      let row : ShortLink :=
        { short_url := shortUrl, long_url := longUrl, created_at := now, expire_at := expire }
      let res := execInsert (faults.exec st.inserts.length) st.table row
      let st1 : GenerateRun :=
        { st with
          table := res.2
          generatorCalls := st.generatorCalls + 1
          inserts := st.inserts ++ [row] }
      match res.1 with
      | some e =>
        if e.mysqlNumber = some 1062 then
          GenerateShortUrl.loop s faults now longUrl expire fuel (tries + 1) (some e) st1
        else
          some { st1 with token := "", err := some ("cant insert into mysql: " ++ e.text) }
      | none => some { st1 with token := shortUrl, err := none }

/-- `mysqlShortenerService.GenerateShortUrl`. -/
def GenerateShortUrl (s : mysqlShortenerService) (faults : InsertFaults)
    (table : List ShortLink) (now : Time) (longUrl : String) (ttl : Duration) :
    Option GenerateRun :=
  let expire : Option Time := if ttl > 0 then some (now + ttl) else none
  match faults.prepare with
  | some e =>
    some { token := "", err := some ("cant prepare sql statement: " ++ e.text),
           table := table, generatorCalls := 0, inserts := [] }
  | none =>
    GenerateShortUrl.loop s faults now longUrl expire (maxInsertTries + 2) 0 none
      { token := "", err := none, table := table, generatorCalls := 0, inserts := [] }

/-- The loop `for result.Next() { result.Scan(&longUrl, &expireAt) }`. -/
def scanRows (scan : Nat → Option DbError) :
    List ShortLink → Nat → String × Option Time → Except String (String × Option Time)
  | [], _, acc => .ok acc
  | r :: rest, i, _ =>
    match scan i with
    | some e => .error ("cant get result: " ++ e.text)
    | none => scanRows scan rest (i + 1) (r.long_url, r.expire_at)

/-- `mysqlShortenerService.GetLongUrl`: the pair of its two return values. -/
def GetLongUrl (faults : SelectFaults) (table : List ShortLink) (now : Time)
    (shortUrl : String) : String × Option String :=
  match faults.prepare with
  | some e => ("", some ("cant prepare sql statement: " ++ e.text))
  | none =>
    match faults.query with
    | some e => ("", some ("cant exec sql statement: " ++ e.text))
    | none =>
      match scanRows faults.scan (querySelect table shortUrl) 0 ("", none) with
      | .error msg => ("", some msg)
      | .ok (longUrl, expireAt) =>
        match expireAt with
        | some e => if e < now then ("", none) else (longUrl, none)
        | none => (longUrl, none)

/-! ## Library functions used by the HTTP handler

Strings are handled as lists of characters; the byte `/` never occurs inside a
multi-byte character, so this agrees with Go's byte strings for what follows. -/

/-- `strings.HasPrefix` on character lists. -/
def startsWithChars : List Char → List Char → Bool
  | _, [] => true
  | [], _ :: _ => false
  | c :: cs, p :: ps => c == p && startsWithChars cs ps

/-- `strings.HasPrefix(s, p)`. -/
def stringsStartsWith (s p : String) : Bool := startsWithChars s.data p.data

/-- `strings.Contains` on character lists. -/
def containsChars (sub : List Char) : List Char → Bool
  | [] => sub.isEmpty
  | c :: rest => startsWithChars (c :: rest) sub || containsChars sub rest

/-- `strings.Contains(s, sub)`. -/
def stringsContains (s sub : String) : Bool := containsChars sub.data s.data

/-- The left-to-right scan of `strings.ReplaceAll` for a non-empty `old`: at each
position not inside a match already replaced (`skip = 0`), a match of `old` is
replaced by `new` and its remaining `old.length - 1` characters are skipped;
any other character is kept. -/
def replaceChars (old new : List Char) : Nat → List Char → List Char
  | _, [] => []
  | skip + 1, _ :: rest => replaceChars old new skip rest
  | 0, c :: rest =>
    if startsWithChars (c :: rest) old then new ++ replaceChars old new (old.length - 1) rest
    else c :: replaceChars old new 0 rest

/-- `strings.ReplaceAll(s, old, new)`; with an empty `old` Go puts `new` at the
start and after every character. -/
def stringsReplaceAll (s old new : String) : String :=
  if old.data = [] then ⟨new.data ++ s.data.flatMap (fun c => c :: new.data)⟩
  else ⟨replaceChars old.data new.data 0 s.data⟩

/-- `path.Base`: the empty path gives "."; trailing slashes are stripped, what
follows the last remaining slash is kept, and a path of slashes only gives "/". -/
def pathBase (p : String) : String :=
  if p = "" then "."
  else
    let stripped := (p.data.reverse.dropWhile (fun c => c == '/')).reverse
    let last := (stripped.reverse.takeWhile (fun c => c != '/')).reverse
    if last = [] then "/" else ⟨last⟩

/-- The value of a run of decimal digits, `none` when a character is not a digit. -/
def digitsValue : List Char → Nat → Option Nat
  | [], acc => some acc
  | c :: rest, acc =>
    if '0' ≤ c ∧ c ≤ '9' then digitsValue rest (acc * 10 + (c.toNat - '0'.toNat)) else none

/-- `strconv.Atoi` for a 64-bit `int`: an optional sign, then one or more decimal
digits, and a value within the range of `int`; `none` is the error. -/
def strconvAtoi (s : String) : Option Int :=
  let signed : Bool × List Char :=
    match s.data with
    | '-' :: rest => (true, rest)
    | '+' :: rest => (false, rest)
    | cs => (false, cs)
  match signed.2 with
  | [] => none
  | d :: ds =>
    match digitsValue (d :: ds) 0 with
    | none => none
    | some n =>
      let v : Int := if signed.1 then -(n : Int) else (n : Int)
      if -(2 ^ 63 : Int) ≤ v ∧ v < 2 ^ 63 then some v else none

/-- Two's-complement wrap-around of an integer into the range of `int64`. -/
def wrapInt64 (x : Int) : Int := (x + 2 ^ 63) % 2 ^ 64 - 2 ^ 63

/-- The product `time.Second * time.Duration(n)` in `int64` nanoseconds. -/
def secondsToDuration (n : Int) : Duration := wrapInt64 (1000000000 * wrapInt64 n)

/-- `http.StatusText` for the codes the handler uses. -/
def statusText (code : Nat) : String :=
  if code = 400 then "Bad Request"
  else if code = 404 then "Not Found"
  else if code = 405 then "Method Not Allowed"
  else if code = 500 then "Internal Server Error"
  else ""

/-! ## The HTTP handler (`httpserver.go`) -/

/-- The interface `ShortenerService` as the handler sees it: each operation
gives the pair of its two return values. -/
structure ShortenerService where
  GenerateShortUrl : Time → String → Duration → String × Option String
  GetLongUrl : Time → String → String × Option String

structure HttpServer where
  shortener : ShortenerService
  shortUrlScheme : String
  shortUrlDomain : String
  shortUrlPath : String

/-- `NewHttpServer`; `Except.error` carries the text of the returned error. -/
def NewHttpServer (shortener : ShortenerService) (shortUrlScheme shortUrlDomain
    shortUrlPath : String) : Except String HttpServer :=
  if shortUrlScheme ≠ "http" ∧ shortUrlScheme ≠ "https" then
    .error "invalid schema"
  else if stringsContains shortUrlDomain "/" || shortUrlDomain == "" then
    .error "invalid domain"
  else if !stringsStartsWith shortUrlPath "/" then
    .error "invalid path"
  else
    .ok { shortener := shortener
          shortUrlDomain := shortUrlDomain
          shortUrlScheme := shortUrlScheme
          shortUrlPath := stringsReplaceAll shortUrlPath "//" "/" }

structure GenerateUrlRequest where
  LongUrl : String
  TtlSeconds : Int
  deriving DecidableEq, Repr

/-- What the handler reads of a request.  `form` is `r.Form` after `ParseForm`
or `ParseMultipartForm`, as key and value pairs in order; `body` is the result
of `io.ReadAll(r.Body)`. -/
structure Request where
  method : String
  path : String
  contentType : String
  form : List (String × String)
  body : Except String String

/-- `url.Values.Get`: the first value under the key, or the empty string. -/
def formGet (form : List (String × String)) (key : String) : String :=
  match form.find? (fun kv => kv.1 == key) with
  | some kv => kv.2
  | none => ""

/-- A JSON value as `json.Unmarshal` meets it under a key of the top-level
object; of an array or an object only the kind matters to the two fields. -/
inductive JsonValue where
  | null
  | bool (b : Bool)
  | number (literal : String)
  | string (s : String)
  | array
  | object
  deriving DecidableEq, Repr

/-- A JSON text after the syntax check: an object with its members in order,
or a value of another kind. -/
inductive JsonDocument where
  | object (members : List (String × JsonValue))
  | other (v : JsonValue)
  deriving DecidableEq, Repr

/-- The fields of `GenerateUrlRequest`. -/
inductive StructField where
  | LongUrl
  | TtlSeconds
  deriving DecidableEq, Repr

/-- Case folding of one character of a key as `encoding/json` compares keys with
field names: ASCII capitals, and the two characters that fold to `s` and `k`. -/
def foldNameChar (c : Char) : Char :=
  if c = Char.ofNat 0x17F then 's'
  else if c = Char.ofNat 0x212A then 'k'
  else if 'A' ≤ c ∧ c ≤ 'Z' then Char.ofNat (c.toNat + 32)
  else c

/-- A key of the object matches the lower-case field name `name`: exactly, or
after case folding. -/
def fieldMatches (name key : String) : Bool :=
  key == name || key.data.map foldNameChar == name.data

/-- The field of `GenerateUrlRequest` a key of the object is decoded into, from
the tags `json:"long_url"` and `json:"ttl_seconds,omitempty"`; other keys are
skipped. -/
def structField (key : String) : Option StructField :=
  if fieldMatches "long_url" key then some .LongUrl
  else if fieldMatches "ttl_seconds" key then some .TtlSeconds
  else none

/-- The decoder keeps the first error it meets and goes on. -/
def saveError (saved : Option String) (e : String) : Option String :=
  match saved with
  | some e0 => some e0
  | none => some e

/-- One member of the object decoded into the struct: `null` leaves a field as
it is, `long_url` takes a string, `ttl_seconds` a number literal that
`strconv.ParseInt(literal, 10, 64)` accepts; any other value under these keys
is a type error. -/
def decodeMember (st : GenerateUrlRequest × Option String) (m : String × JsonValue) :
    GenerateUrlRequest × Option String :=
  match structField m.1 with
  | none => st
  | some .LongUrl =>
    match m.2 with
    | .null => st
    | .string v => ({ st.1 with LongUrl := v }, st.2)
    | _ => (st.1, saveError st.2
        "json: cannot unmarshal value into Go struct field GenerateUrlRequest.long_url of type string")
  | some .TtlSeconds =>
    match m.2 with
    | .null => st
    | .number literal =>
      match strconvAtoi literal with
      | some n => ({ st.1 with TtlSeconds := n }, st.2)
      | none => (st.1, saveError st.2
          "json: cannot unmarshal number into Go struct field GenerateUrlRequest.ttl_seconds of type int")
    | _ => (st.1, saveError st.2
        "json: cannot unmarshal value into Go struct field GenerateUrlRequest.ttl_seconds of type int")

/-- The call `json.Unmarshal(body, parsedBody)` on a fresh `GenerateUrlRequest`,
given the syntax check and parse `jsonParse` of the text (`none`: not JSON).
A top-level `null` changes nothing, another value that is not an object is a
type error, and the members of an object are decoded in order. -/
def jsonUnmarshal (jsonParse : String → Option JsonDocument) (body : String) :
    Except String GenerateUrlRequest :=
  match jsonParse body with
  | none => .error "invalid character looking for beginning of value"
  | some (.other .null) => .ok { LongUrl := "", TtlSeconds := 0 }
  | some (.other _) =>
    .error "json: cannot unmarshal value into Go value of type shortener.GenerateUrlRequest"
  | some (.object members) =>
    let res := members.foldl decodeMember ({ LongUrl := "", TtlSeconds := 0 }, none)
    match res.2 with
    | some e => .error e
    | none => .ok res.1

/-- What the handler takes from outside the package: the JSON syntax check and
parse behind `json.Unmarshal`, the error of `url.Parse` if any, and `time.Now()`. -/
structure Externals where
  jsonParse : String → Option JsonDocument
  urlParse : String → Option String
  now : Time

/-- What the handler writes: a call of `http.Error`, of `http.Redirect`, or a
JSON body under an explicit status. -/
inductive Response where
  | error (msg : String) (code : Nat)
  | redirect (url : String) (code : Nat)
  | json (code : Nat) (body : String)
  deriving DecidableEq, Repr

deriving instance DecidableEq for Except

/-- The status code of a response. -/
def Response.status : Response → Nat
  | .error _ code => code
  | .redirect _ code => code
  | .json code _ => code

/-- A call of the service made by the handler. -/
inductive ServiceCall where
  | generateShortUrl (now : Time) (longUrl : String) (ttl : Duration)
  | getLongUrl (now : Time) (shortUrl : String)
  deriving DecidableEq, Repr

/-- The body of the two form cases of the `switch`: `long_url`, and the TTL
from `ttl_seconds` when that value is not empty. -/
def readFormFields (r : Request) : Except Response (String × Duration) :=
  let longUrl := formGet r.form "long_url"
  let ttlRaw := formGet r.form "ttl_seconds"
  if ttlRaw.length > 0 then
    match strconvAtoi ttlRaw with
    | none => .error (.error "ttl_seconds is invalid" 400)
    | some ttlSeconds => .ok (longUrl, secondsToDuration ttlSeconds)
  else
    .ok (longUrl, 0)

/-- The `switch` of `handleGenerateUrl`: the long URL and TTL read from the
request, or the response already written. -/
def readGenerateUrlRequest (ext : Externals) (r : Request) :
    Except Response (String × Duration) :=
  if r.contentType = "application/x-www-form-urlencoded" then
    readFormFields r
  else if stringsContains r.contentType "multipart/form-data" then
    readFormFields r
  else
    match r.body with
    | .error _ => .error (.error (statusText 400) 400)
    | .ok body =>
      match jsonUnmarshal ext.jsonParse body with
      | .error e => .error (.error ("cant parse request body: " ++ e) 400)
      | .ok parsedBody => .ok (parsedBody.LongUrl, secondsToDuration parsedBody.TtlSeconds)

/-- `HttpServer.handleGenerateUrl`: the response and the service calls made. -/
def handleGenerateUrl (s : HttpServer) (ext : Externals) (r : Request) :
    Response × List ServiceCall :=
  match readGenerateUrlRequest ext r with
  | .error resp => (resp, [])
  | .ok (longUrl, ttl) =>
    if longUrl.length = 0 then
      (.error "long_url cannot be empty" 400, [])
    else if ttl < 0 then
      (.error "ttl_seconds should be > 0" 400, [])
    else
      match ext.urlParse longUrl with
      | some e => (.error ("long_url is invalid url: " ++ e) 400, [])
      | none =>
        let res := s.shortener.GenerateShortUrl ext.now longUrl ttl
        let calls := [ServiceCall.generateShortUrl ext.now longUrl ttl]
        match res.2 with
        | some _ => (.error "error on generate short url" 500, calls)
        | none =>
          let shortUrl :=
            s.shortUrlScheme ++ "://" ++ s.shortUrlDomain ++ s.shortUrlPath ++ res.1
          (.json 200 ("\x7b\"short_url\": \"" ++ shortUrl ++ "\"\x7d"), calls)

/-- `HttpServer.handleShortUrl`: the response and the service calls made. -/
def handleShortUrl (s : HttpServer) (ext : Externals) (r : Request) :
    Response × List ServiceCall :=
  let shortUrl := pathBase r.path
  let res := s.shortener.GetLongUrl ext.now shortUrl
  let calls := [ServiceCall.getLongUrl ext.now shortUrl]
  match res.2 with
  | some _ => (.error (statusText 500) 500, calls)
  | none =>
    if res.1 = "" then (.error (statusText 404) 404, calls)
    else (.redirect res.1 301, calls)

/-- `HttpServer.ServeHTTP`. -/
def ServeHTTP (s : HttpServer) (ext : Externals) (r : Request) :
    Response × List ServiceCall :=
  if r.path = "/api/v1/generate_short_url" then
    if r.method ≠ "PUT" ∧ r.method ≠ "POST" then
      (.error (statusText 405) 405, [])
    else
      handleGenerateUrl s ext r
  else
    handleShortUrl s ext r

/-! ## Observations used to state the properties -/

/-- The row handed to the `i`-th `ExecContext` of a `GenerateShortUrl`: the
`i`-th generated candidate with the arguments of the call. -/
def candidate (s : mysqlShortenerService) (now : Time) (longUrl : String)
    (expire : Option Time) (i : Nat) : ShortLink :=
  { short_url := s.randomStringFn i s.shortUrlLength, long_url := longUrl,
    created_at := now, expire_at := expire }

/-- The error value the `i`-th insert attempt of a call on `table` comes back with. -/
def insertErr (s : mysqlShortenerService) (faults : InsertFaults) (table : List ShortLink)
    (now : Time) (longUrl : String) (expire : Option Time) (i : Nat) : Option DbError :=
  (execInsert (faults.exec i) table (candidate s now longUrl expire i)).1

/-- The test `err != nil && errors.As(err, &mysqlErr) && mysqlErr.Number == 1062`. -/
def isDuplicateKey : Option DbError → Bool
  | some e => decide (e.mysqlNumber = some 1062)
  | none => false

/-- The expiry `GenerateShortUrl` computes from `now` and `ttl`. -/
def expireOf (now : Time) (ttl : Duration) : Option Time :=
  if ttl > 0 then some (now + ttl) else none

/-- A decimal integer in the sense of the create route: an optional sign
followed by one or more decimal digits. -/
def isDecimalInteger (s : String) : Bool :=
  let digits : List Char :=
    match s.data with
    | '-' :: rest => rest
    | '+' :: rest => rest
    | cs => cs
  !digits.isEmpty && digits.all (fun c => decide ('0' ≤ c ∧ c ≤ '9'))

/-- A generator that always returns the same token. -/
def constGen (tok : String) : mysqlShortenerService :=
  { shortUrlLength := 5, randomStringFn := fun _ _ => tok }

/-- A generator returning "aaaaa", "bbbbb", then "ccccc" from the third call on. -/
def demoGen : mysqlShortenerService :=
  { shortUrlLength := 5
    randomStringFn := fun i _ => if i = 0 then "aaaaa" else if i = 1 then "bbbbb" else "ccccc" }

/-- A table holding the tokens "aaaaa" and "bbbbb". -/
def demoTable : List ShortLink :=
  [{ short_url := "aaaaa", long_url := "https://a.example", created_at := 0, expire_at := none },
   { short_url := "bbbbb", long_url := "https://b.example", created_at := 0, expire_at := some 50 }]

/-- Faults of a call whose third `ExecContext` loses the connection. -/
def demoFaults : InsertFaults :=
  { prepare := none
    exec := fun i => if i = 2 then some { mysqlNumber := none, text := "invalid connection" }
                     else none }

/-- The rows handed to the first `n` inserts after `c` earlier ones. -/
def candidatesFrom (s : mysqlShortenerService) (now : Time) (longUrl : String)
    (expire : Option Time) (c n : Nat) : List ShortLink :=
  (List.range' c n).map (candidate s now longUrl expire)

/-- The service double of `httpserver_test.go`: "qwerty" resolves, nothing
else does; generation always answers "abcde". -/
def fakeShortener : ShortenerService :=
  { GenerateShortUrl := fun _ _ _ => ("abcde", none)
    GetLongUrl := fun _ shortUrl =>
      if shortUrl = "qwerty" then ("https://google.com/path", none) else ("", none) }

/-- A handler as built for `https://example.com/`. -/
def demoServer : HttpServer :=
  { shortener := fakeShortener, shortUrlScheme := "https", shortUrlDomain := "example.com",
    shortUrlPath := "/" }

/-- Externals that accept every URL and take no body for JSON, at time 1000. -/
def demoExt : Externals :=
  { jsonParse := fun _ => none
    urlParse := fun _ => none
    now := 1000 }

/-- The JSON body with a `null` under `ttl_seconds`. -/
def nullTtlBody : String :=
  "\x7b\"long_url\": \"https://example.com/page\", \"ttl_seconds\": null\x7d"

/-- The JSON body with a string under `ttl_seconds`. -/
def stringTtlBody : String :=
  "\x7b\"long_url\": \"https://example.com/page\", \"ttl_seconds\": \"1h\"\x7d"

/-- Externals that accept every URL and parse the two bodies above, at time 1000. -/
def demoJsonExt : Externals :=
  { jsonParse := fun body =>
      if body = nullTtlBody then
        some (.object [("long_url", .string "https://example.com/page"),
                       ("ttl_seconds", .null)])
      else if body = stringTtlBody then
        some (.object [("long_url", .string "https://example.com/page"),
                       ("ttl_seconds", .string "1h")])
      else none
    urlParse := fun _ => none
    now := 1000 }

/-- A create request with a JSON body. -/
def jsonRequest (body : String) : Request :=
  { method := "POST", path := "/api/v1/generate_short_url",
    contentType := "application/json", form := [], body := .ok body }

/-- A create request with a URL-encoded form body. -/
def formRequest (form : List (String × String)) : Request :=
  { method := "POST", path := "/api/v1/generate_short_url",
    contentType := "application/x-www-form-urlencoded", form := form, body := .ok "" }

/-! ## The store across a lookup -/

/-- The statement `SELECT long_url, expire_at FROM short_urls where short_url = ?`
run by `stmt.QueryContext`, with the table it leaves: a driver fault gives the
error, otherwise the rows under the key come back; the table is not written. -/
def execSelect (fault : Option DbError) (table : List ShortLink) (shortUrl : String) :
    Except DbError (List ShortLink) × List ShortLink :=
  match fault with
  | some e => (.error e, table)
  | none => (.ok (querySelect table shortUrl), table)

/-- What one `GetLongUrl` did: the two values it returns and the table it leaves. -/
structure LookupRun where
  longUrl : String
  err : Option String
  table : List ShortLink
  deriving DecidableEq, Repr

/-- `mysqlShortenerService.GetLongUrl` with the table threaded through its one
statement. -/
def GetLongUrl.run (faults : SelectFaults) (table : List ShortLink) (now : Time)
    (shortUrl : String) : LookupRun :=
  match faults.prepare with
  | some e =>
    { longUrl := "", err := some ("cant prepare sql statement: " ++ e.text), table := table }
  | none =>
    let res := execSelect faults.query table shortUrl
    match res.1 with
    | .error e =>
      { longUrl := "", err := some ("cant exec sql statement: " ++ e.text), table := res.2 }
    | .ok result =>
      match scanRows faults.scan result 0 ("", none) with
      | .error msg => { longUrl := "", err := some msg, table := res.2 }
      | .ok (longUrl, expireAt) =>
        match expireAt with
        | some e =>
          if e < now then { longUrl := "", err := none, table := res.2 }
          else { longUrl := longUrl, err := none, table := res.2 }
        | none => { longUrl := longUrl, err := none, table := res.2 }

/-! ## Lemmas on the store and the retry loop -/

theorem execInsert_err_table (fault : Option DbError) (table : List ShortLink) (row : ShortLink)
    (e : DbError) (h : (execInsert fault table row).1 = some e) :
    (execInsert fault table row).2 = table := by
  unfold execInsert at *
  cases fault with
  | some f => rfl
  | none =>
    by_cases hk : table.any (fun r => r.short_url == row.short_url) = true
    · simp [hk]
    · simp [hk] at h

theorem execInsert_ok (fault : Option DbError) (table : List ShortLink) (row : ShortLink)
    (h : (execInsert fault table row).1 = none) :
    (execInsert fault table row).2 = table ++ [storedRow row] ∧
      table.any (fun r => r.short_url == row.short_url) = false := by
  unfold execInsert at *
  cases fault with
  | some f => simp at h
  | none =>
    by_cases hk : table.any (fun r => r.short_url == row.short_url) = true
    · simp [hk] at h
    · simp only [Bool.not_eq_true] at hk
      simp [hk]

/-- One turn of the loop whose insert is rejected as a duplicate. -/
theorem loop_dup_step (s : mysqlShortenerService) (faults : InsertFaults) (now : Time)
    (longUrl : String) (expire : Option Time) (fuel tries : Nat) (err : Option DbError)
    (st : GenerateRun) (e : DbError) (ht : tries ≤ maxInsertTries)
    (he : insertErr s faults st.table now longUrl expire st.inserts.length = some e)
    (hg : st.generatorCalls = st.inserts.length)
    (hd : e.mysqlNumber = some 1062) :
    GenerateShortUrl.loop s faults now longUrl expire (fuel + 1) tries err st =
      GenerateShortUrl.loop s faults now longUrl expire fuel (tries + 1) (some e)
        { st with
          generatorCalls := st.generatorCalls + 1
          inserts := st.inserts ++ [candidate s now longUrl expire st.inserts.length] } := by
  have hnot : ¬ tries > maxInsertTries := by omega
  have htab := execInsert_err_table _ _ _ _ he
  unfold insertErr candidate at he
  unfold candidate at htab
  rw [GenerateShortUrl.loop]
  simp only [hnot, if_false, hg]
  rw [he]
  simp only [hd, if_true]
  unfold candidate
  rw [htab]

theorem candidatesFrom_length (s : mysqlShortenerService) (now : Time) (longUrl : String)
    (expire : Option Time) (c n : Nat) :
    (candidatesFrom s now longUrl expire c n).length = n := by
  simp [candidatesFrom]

theorem isDuplicateKey_some {o : Option DbError} (h : isDuplicateKey o = true) :
    ∃ e, o = some e ∧ e.mysqlNumber = some 1062 := by
  cases o with
  | none => simp [isDuplicateKey] at h
  | some e => exact ⟨e, rfl, by simpa [isDuplicateKey] using h⟩

/-- The loop after `K` inserts in a row rejected as duplicates: `K` turns are
spent, the table is as before, and generator and store were called `K` times. -/
theorem loop_dups (s : mysqlShortenerService) (faults : InsertFaults) (now : Time)
    (longUrl : String) (expire : Option Time) (table : List ShortLink) :
    ∀ (K fuel tries : Nat) (err : Option DbError) (st : GenerateRun),
      st.table = table → st.generatorCalls = st.inserts.length →
      tries + K ≤ maxInsertTries + 1 →
      (∀ i, i < K →
        isDuplicateKey (insertErr s faults table now longUrl expire (st.inserts.length + i))
          = true) →
      ∃ (err1 : Option DbError) (st1 : GenerateRun),
        GenerateShortUrl.loop s faults now longUrl expire (fuel + K) tries err st =
          GenerateShortUrl.loop s faults now longUrl expire fuel (tries + K) err1 st1 ∧
        st1.table = table ∧ st1.generatorCalls = st.generatorCalls + K ∧
        st1.inserts = st.inserts ++ candidatesFrom s now longUrl expire st.inserts.length K ∧
        err1 = (if K = 0 then err
          else insertErr s faults table now longUrl expire (st.inserts.length + K - 1)) := by
  intro K
  induction K with
  | zero =>
    intro fuel tries err st _ _ _ _
    exact ⟨err, st, rfl, by assumption, rfl, by simp [candidatesFrom], by simp⟩
  | succ K ih =>
    intro fuel tries err st htab hg hle hdup
    obtain ⟨e, he, hd⟩ := isDuplicateKey_some (hdup 0 (Nat.succ_pos K))
    rw [Nat.add_zero] at he
    have hstep := loop_dup_step s faults now longUrl expire (fuel + K) tries err st e
      (by omega) (by rw [htab]; exact he) hg hd
    have hlen : ({ st with
          generatorCalls := st.generatorCalls + 1
          inserts := st.inserts ++ [candidate s now longUrl expire st.inserts.length] }
          : GenerateRun).inserts.length = st.inserts.length + 1 := by simp
    obtain ⟨err1, st1, hrun, ht1, hg1, hi1, herr1⟩ := ih fuel (tries + 1) (some e)
      { st with
          generatorCalls := st.generatorCalls + 1
          inserts := st.inserts ++ [candidate s now longUrl expire st.inserts.length] }
      htab (by simp [hg]) (by omega)
      (by
        intro i hi
        rw [hlen]
        have := hdup (i + 1) (by omega)
        rw [show st.inserts.length + 1 + i = st.inserts.length + (i + 1) by omega]
        exact this)
    refine ⟨err1, st1, ?_, ht1, ?_, ?_, ?_⟩
    · rw [show fuel + (K + 1) = fuel + K + 1 by omega, hstep, hrun]
      rw [show tries + 1 + K = tries + (K + 1) by omega]
    · rw [hg1]; simp only; omega
    · rw [hi1, hlen]
      simp [candidatesFrom, List.range'_succ]
    · rw [herr1, hlen]
      by_cases hK : K = 0
      · subst hK
        simp [he]
      · simp only [hK, if_false, Nat.succ_ne_zero]
        congr 1
        omega

/-- One turn of the loop whose insert is accepted. -/
theorem loop_ok_step (s : mysqlShortenerService) (faults : InsertFaults) (now : Time)
    (longUrl : String) (expire : Option Time) (fuel tries : Nat) (err : Option DbError)
    (st : GenerateRun) (ht : tries ≤ maxInsertTries)
    (he : insertErr s faults st.table now longUrl expire st.inserts.length = none)
    (hg : st.generatorCalls = st.inserts.length) :
    GenerateShortUrl.loop s faults now longUrl expire (fuel + 1) tries err st =
      some { token := s.randomStringFn st.inserts.length s.shortUrlLength
             err := none
             table := st.table ++ [storedRow (candidate s now longUrl expire st.inserts.length)]
             generatorCalls := st.generatorCalls + 1
             inserts := st.inserts ++ [candidate s now longUrl expire st.inserts.length] } := by
  have hnot : ¬ tries > maxInsertTries := by omega
  have htab := (execInsert_ok _ _ _ he).1
  unfold insertErr candidate at he
  unfold candidate at htab
  rw [GenerateShortUrl.loop]
  simp only [hnot, if_false, hg]
  rw [he]
  simp only
  unfold candidate
  rw [htab]

/-- One turn of the loop whose insert fails with an error other than 1062. -/
theorem loop_fatal_step (s : mysqlShortenerService) (faults : InsertFaults) (now : Time)
    (longUrl : String) (expire : Option Time) (fuel tries : Nat) (err : Option DbError)
    (st : GenerateRun) (e : DbError) (ht : tries ≤ maxInsertTries)
    (he : insertErr s faults st.table now longUrl expire st.inserts.length = some e)
    (hg : st.generatorCalls = st.inserts.length)
    (hd : e.mysqlNumber ≠ some 1062) :
    GenerateShortUrl.loop s faults now longUrl expire (fuel + 1) tries err st =
      some { token := ""
             err := some ("cant insert into mysql: " ++ e.text)
             table := st.table
             generatorCalls := st.generatorCalls + 1
             inserts := st.inserts ++ [candidate s now longUrl expire st.inserts.length] } := by
  have hnot : ¬ tries > maxInsertTries := by omega
  have htab := execInsert_err_table _ _ _ _ he
  unfold insertErr candidate at he
  unfold candidate at htab
  rw [GenerateShortUrl.loop]
  simp only [hnot, if_false, hg]
  rw [he]
  simp only [hd, if_false]
  unfold candidate
  rw [htab]

theorem candidatesFrom_succ (s : mysqlShortenerService) (now : Time) (longUrl : String)
    (expire : Option Time) (n : Nat) :
    candidatesFrom s now longUrl expire 0 n ++ [candidate s now longUrl expire n] =
      candidatesFrom s now longUrl expire 0 (n + 1) := by
  simp [candidatesFrom, List.range'_1_concat]

/-- A run of the loop that ends without error appended exactly one row, keyed by
the returned token, to a table that did not hold that key. -/
theorem loop_success (s : mysqlShortenerService) (faults : InsertFaults) (now : Time)
    (longUrl : String) (expire : Option Time) (fuel : Nat) :
    ∀ (tries : Nat) (err : Option DbError) (st run : GenerateRun),
      GenerateShortUrl.loop s faults now longUrl expire fuel tries err st = some run →
      run.err = none →
      run.table = st.table ++ [storedRow { short_url := run.token, long_url := longUrl,
                                           created_at := now, expire_at := expire }] ∧
      st.table.any (fun r => r.short_url == run.token) = false := by
  induction fuel with
  | zero =>
    intro tries err st run h
    simp [GenerateShortUrl.loop] at h
  | succ fuel ih =>
    intro tries err st run h hok
    rw [GenerateShortUrl.loop] at h
    by_cases ht : tries > maxInsertTries
    · simp only [ht, if_true, Option.some.injEq] at h
      subst h
      simp at hok
    · simp only [ht, if_false] at h
      cases hres : (execInsert (faults.exec st.inserts.length) st.table
          { short_url := s.randomStringFn st.generatorCalls s.shortUrlLength,
            long_url := longUrl, created_at := now, expire_at := expire }).1 with
      | none =>
        rw [hres] at h
        simp only [Option.some.injEq] at h
        obtain ⟨htab, hkey⟩ := execInsert_ok _ _ _ hres
        subst h
        exact ⟨htab, hkey⟩
      | some e =>
        rw [hres] at h
        have htab := execInsert_err_table _ _ _ _ hres
        by_cases hd : e.mysqlNumber = some 1062
        · simp only [hd, if_true] at h
          have := ih _ _ _ _ h hok
          simpa [htab] using this
        · simp only [hd, if_false, Option.some.injEq] at h
          subst h
          simp at hok

/-- With enough fuel the loop returns. -/
theorem loop_returns (s : mysqlShortenerService) (faults : InsertFaults) (now : Time)
    (longUrl : String) (expire : Option Time) (fuel : Nat) :
    ∀ (tries : Nat) (err : Option DbError) (st : GenerateRun),
      0 < fuel → maxInsertTries + 2 ≤ fuel + tries →
      ∃ run, GenerateShortUrl.loop s faults now longUrl expire fuel tries err st = some run := by
  induction fuel with
  | zero =>
    intro tries err st h0
    exact absurd h0 (Nat.lt_irrefl 0)
  | succ fuel ih =>
    intro tries err st _ h
    rw [GenerateShortUrl.loop]
    by_cases ht : tries > maxInsertTries
    · simp [ht]
    · simp only [ht, if_false]
      cases hres : (execInsert (faults.exec st.inserts.length) st.table
          { short_url := s.randomStringFn st.generatorCalls s.shortUrlLength,
            long_url := longUrl, created_at := now, expire_at := expire }).1 with
      | none => simp
      | some e =>
        by_cases hd : e.mysqlNumber = some 1062
        · simp only [hd, if_true]
          exact ih _ _ _ (by omega) (by omega)
        · simp [hd]

/-- `GenerateShortUrl` always returns: the fuel of the loop never runs out. -/
theorem GenerateShortUrl_returns (s : mysqlShortenerService) (faults : InsertFaults)
    (table : List ShortLink) (now : Time) (longUrl : String) (ttl : Duration) :
    ∃ run, GenerateShortUrl s faults table now longUrl ttl = some run := by
  unfold GenerateShortUrl
  cases faults.prepare with
  | some e => exact ⟨_, rfl⟩
  | none => exact loop_returns s faults now longUrl _ _ 0 none _ (by omega) (by omega)

/-- A successful `GenerateShortUrl` appended the row (token, long_url, now,
expiry) to a table without that token. -/
theorem GenerateShortUrl_success (s : mysqlShortenerService) (faults : InsertFaults)
    (table : List ShortLink) (now : Time) (longUrl : String) (ttl : Duration)
    (run : GenerateRun) (h : GenerateShortUrl s faults table now longUrl ttl = some run)
    (hok : run.err = none) :
    run.table = table ++ [storedRow { short_url := run.token, long_url := longUrl,
                                      created_at := now, expire_at := expireOf now ttl }] ∧
    table.any (fun r => r.short_url == run.token) = false := by
  unfold GenerateShortUrl at h
  cases hp : faults.prepare with
  | some e =>
    rw [hp] at h
    simp only [Option.some.injEq] at h
    subst h
    simp at hok
  | none =>
    rw [hp] at h
    exact loop_success s faults now longUrl _ _ 0 none _ run h hok

/-- A select by key on a table whose keys are distinct returns the one row. -/
theorem querySelect_mem (table : List ShortLink) (r : ShortLink)
    (hkey : (table.map (fun x => x.short_url)).Nodup) (hr : r ∈ table) :
    querySelect table r.short_url = [r] := by
  unfold querySelect
  induction table with
  | nil => simp at hr
  | cons a rest ih =>
    simp only [List.map_cons, List.nodup_cons, List.mem_map, not_exists, not_and] at hkey
    rcases List.mem_cons.mp hr with h | h
    · subst h
      have hnone : rest.filter (fun x => x.short_url == r.short_url) = [] := by
        rw [List.filter_eq_nil_iff]
        intro x hx
        have := hkey.1 x hx
        simpa using this
      simp [List.filter_cons, hnone]
    · have hne : a.short_url ≠ r.short_url := fun heq => hkey.1 r h heq.symm
      simp [List.filter_cons, hne, ih hkey.2 h]

/-- A select by a key that no row has returns nothing. -/
theorem querySelect_absent (table : List ShortLink) (token : String)
    (h : ∀ r ∈ table, r.short_url ≠ token) : querySelect table token = [] := by
  unfold querySelect
  rw [List.filter_eq_nil_iff]
  intro x hx
  simpa using h x hx

/-- An insert keeps the keys of the table distinct. -/
theorem execInsert_nodup (fault : Option DbError) (table : List ShortLink) (row : ShortLink)
    (hkey : (table.map (fun x => x.short_url)).Nodup) :
    (((execInsert fault table row).2).map (fun x => x.short_url)).Nodup := by
  cases h : (execInsert fault table row).1 with
  | some e => rw [execInsert_err_table _ _ _ _ h]; exact hkey
  | none =>
    obtain ⟨htab, hk⟩ := execInsert_ok _ _ _ h
    rw [htab, List.map_append, List.nodup_append]
    refine ⟨hkey, by simp, ?_⟩
    intro a ha hb
    simp only [List.map_cons, List.map_nil, List.mem_singleton] at hb
    subst hb
    obtain ⟨x, hx, hxa⟩ := List.mem_map.mp ha
    have := List.any_eq_false.mp hk x hx
    simp at this
    exact this hxa

/-- `GetLongUrl` without fault when the select returns one row. -/
theorem GetLongUrl_single (table : List ShortLink) (now : Time) (token : String)
    (r : ShortLink) (h : querySelect table token = [r]) :
    GetLongUrl SelectFaults.none table now token =
      (match r.expire_at with
       | some e => if e < now then ("", none) else (r.long_url, none)
       | none => (r.long_url, none)) := by
  unfold GetLongUrl
  simp only [SelectFaults.none, h, scanRows]

/-- `GetLongUrl` without fault when the select returns no row. -/
theorem GetLongUrl_no_row (table : List ShortLink) (now : Time) (token : String)
    (h : querySelect table token = []) :
    GetLongUrl SelectFaults.none table now token = ("", none) := by
  unfold GetLongUrl
  simp only [SelectFaults.none, h, scanRows]

/-- A select by the key of a row appended to a table without that key, also
after later rows with other keys. -/
theorem querySelect_appended (table later : List ShortLink) (row : ShortLink)
    (hold : table.any (fun r => r.short_url == row.short_url) = false)
    (hlater : ∀ r ∈ later, r.short_url ≠ row.short_url) :
    querySelect (table ++ [row] ++ later) row.short_url = [row] := by
  have h1 : querySelect table row.short_url = [] := by
    apply querySelect_absent
    intro r hr
    have := List.any_eq_false.mp hold r hr
    simpa using this
  have h2 : querySelect later row.short_url = [] := querySelect_absent _ _ hlater
  unfold querySelect at *
  simp [List.filter_append, h1, h2]

/-! ## Generation and resolution -/

theorem round_second_bounds (x : Int) :
    (x + 500000000) / 1000000000 * 1000000000 ≤ x + 500000000 ∧
    x < (x + 500000000) / 1000000000 * 1000000000 + 500000000 := by
  constructor <;> omega

theorem round_second_whole (x : Int) (h : x % 1000000000 = 0) :
    (x + 500000000) / 1000000000 * 1000000000 = x := by
  omega

theorem le_of_half_second_before (t x d : Int) (hd : x < d + 500000000)
    (h : t + 500000000 ≤ x) : t ≤ d := by
  omega

theorem lt_of_half_second_after (t x d : Int) (hd : d ≤ x + 500000000)
    (h : x + 500000000 < t) : d < t := by
  omega

theorem start_and_half_before (t0 T d : Int) (hd : t0 + T < d + 500000000)
    (h : 1000000000 ≤ T) : t0 ≤ d ∧ t0 + T / 2 ≤ d := by
  constructor <;> omega

/-- The stored second is within half a second of the instant: at most half a
second later, and less than half a second earlier. -/
theorem datetime_bounds (x : Time) :
    datetime x ≤ x + 500000000 ∧ x < datetime x + 500000000 :=
  round_second_bounds x

/-- An instant on a whole second is stored as it is. -/
theorem datetime_whole (x : Time) (h : x % 1000000000 = 0) : datetime x = x :=
  round_second_whole x h

/-- C1 (counterexample): generated at `t0` = 1.2 s with `T` = 1 s, the record is
stored with `expire_at` = 2 s, and `GetLongUrl` at `t0 + T` = 2.2 s returns the
empty string; generated at `t0` = 1.7 s, it is stored with `expire_at` = 3 s and
still resolves at `t0 + T` + 0.1 s = 2.8 s. -/
theorem generate_then_resolve_sub_second :
    GenerateShortUrl (constGen "abcde") InsertFaults.none [] 1200000000
        "https://example.com/page" 1000000000 =
      some { token := "abcde"
             err := none
             table := [{ short_url := "abcde", long_url := "https://example.com/page",
                         created_at := 1000000000, expire_at := some 2000000000 }]
             generatorCalls := 1
             inserts := [{ short_url := "abcde", long_url := "https://example.com/page",
                           created_at := 1200000000, expire_at := some 2200000000 }] } ∧
    GetLongUrl SelectFaults.none
        [{ short_url := "abcde", long_url := "https://example.com/page",
           created_at := 1000000000, expire_at := some 2000000000 }]
        (1200000000 + 1000000000) "abcde" = ("", none) ∧
    GenerateShortUrl (constGen "abcde") InsertFaults.none [] 1700000000
        "https://example.com/page" 1000000000 =
      some { token := "abcde"
             err := none
             table := [{ short_url := "abcde", long_url := "https://example.com/page",
                         created_at := 2000000000, expire_at := some 3000000000 }]
             generatorCalls := 1
             inserts := [{ short_url := "abcde", long_url := "https://example.com/page",
                           created_at := 1700000000, expire_at := some 2700000000 }] } ∧
    GetLongUrl SelectFaults.none
        [{ short_url := "abcde", long_url := "https://example.com/page",
           created_at := 2000000000, expire_at := some 3000000000 }]
        (1700000000 + 1000000000 + 100000000) "abcde" =
      ("https://example.com/page", none) := by
  decide

/-- C1 (amended): when `GenerateShortUrl(t0, long_url, T)` succeeds with a
token, for `T ≥ 0` as for any `T`, then on the table it leaves (and on any later table that adds
rows under other tokens) `GetLongUrl(t, token)` returns `long_url` whenever
`T = 0` or `t` is not after `t0 + T` rounded to the nearest second, and the
empty string without error whenever `T > 0` and `t` is after that second.
So it returns `long_url` for every `t ≤ t0 + T` - 0.5 s, in particular at `t0`
and at `t0 + T/2` when `T = 0` or `T ≥ 1` s, and the empty string for every
`t > t0 + T` + 0.5 s; when `t0 + T` is a whole second the bound is `t0 + T`
itself. -/
theorem generate_then_resolve (s : mysqlShortenerService) (faults : InsertFaults)
    (table : List ShortLink) (t0 : Time) (longUrl : String) (T : Duration)
    (run : GenerateRun)
    (hrun : GenerateShortUrl s faults table t0 longUrl T = some run)
    (hok : run.err = none) :
    ∀ (later : List ShortLink), (∀ r ∈ later, r.short_url ≠ run.token) →
      (∀ t : Time, (T = 0 ∨ t ≤ datetime (t0 + T)) →
        GetLongUrl SelectFaults.none (run.table ++ later) t run.token = (longUrl, none)) ∧
      (∀ t : Time, 0 < T ∧ datetime (t0 + T) < t →
        GetLongUrl SelectFaults.none (run.table ++ later) t run.token = ("", none)) ∧
      (∀ t : Time, (T = 0 ∨ t + 500000000 ≤ t0 + T) →
        GetLongUrl SelectFaults.none (run.table ++ later) t run.token = (longUrl, none)) ∧
      (∀ t : Time, 0 < T ∧ t0 + T + 500000000 < t →
        GetLongUrl SelectFaults.none (run.table ++ later) t run.token = ("", none)) ∧
      ((T = 0 ∨ 1000000000 ≤ T) →
        GetLongUrl SelectFaults.none (run.table ++ later) t0 run.token = (longUrl, none) ∧
        GetLongUrl SelectFaults.none (run.table ++ later) (t0 + T / 2) run.token =
          (longUrl, none)) ∧
      ((t0 + T) % 1000000000 = 0 →
        (∀ t : Time, (T = 0 ∨ t ≤ t0 + T) →
          GetLongUrl SelectFaults.none (run.table ++ later) t run.token = (longUrl, none)) ∧
        (∀ t : Time, 0 < T ∧ t0 + T < t →
          GetLongUrl SelectFaults.none (run.table ++ later) t run.token = ("", none))) := by
  intro later hlater
  obtain ⟨htab, hkey⟩ := GenerateShortUrl_success s faults table t0 longUrl T run hrun hok
  have hsel := querySelect_appended table later
    (storedRow { short_url := run.token, long_url := longUrl, created_at := t0,
                 expire_at := expireOf t0 T }) hkey hlater
  rw [← htab] at hsel
  have hget : ∀ t : Time, GetLongUrl SelectFaults.none (run.table ++ later) t run.token =
      (match (expireOf t0 T).map datetime with
       | some e => if e < t then ("", none) else (longUrl, none)
       | none => (longUrl, none)) := fun t => GetLongUrl_single _ t _ _ hsel
  have hlive : ∀ t : Time, (T = 0 ∨ t ≤ datetime (t0 + T)) →
      GetLongUrl SelectFaults.none (run.table ++ later) t run.token = (longUrl, none) := by
    intro t ht
    rw [hget t]
    unfold expireOf
    by_cases hpos : T > 0
    · have hle : ¬ datetime (t0 + T) < t := by
        rcases ht with h0 | hle
        · exact absurd h0 (ne_of_gt hpos)
        · exact not_lt.mpr hle
      simp [hpos, hle]
    · simp [hpos]
  have hdead : ∀ t : Time, 0 < T ∧ datetime (t0 + T) < t →
      GetLongUrl SelectFaults.none (run.table ++ later) t run.token = ("", none) := by
    intro t ht
    rw [hget t]
    unfold expireOf
    simp [ht.1, ht.2]
  have hb := datetime_bounds (t0 + T)
  refine ⟨hlive, hdead, ?_, ?_, ?_, ?_⟩
  · intro t ht
    apply hlive
    rcases ht with h0 | h
    · exact Or.inl h0
    · exact Or.inr (le_of_half_second_before t (t0 + T) _ hb.2 h)
  · intro t ht
    exact hdead t ⟨ht.1, lt_of_half_second_after t (t0 + T) _ hb.1 ht.2⟩
  · intro hT1
    constructor
    · apply hlive
      rcases hT1 with h0 | h
      · exact Or.inl h0
      · exact Or.inr (start_and_half_before t0 T _ hb.2 h).1
    · apply hlive
      rcases hT1 with h0 | h
      · exact Or.inl h0
      · exact Or.inr (start_and_half_before t0 T _ hb.2 h).2
  · intro hwhole
    have hw := datetime_whole (t0 + T) hwhole
    constructor
    · intro t ht
      apply hlive
      rw [hw]
      exact ht
    · intro t ht
      apply hdead
      rw [hw]
      exact ht

theorem generate_then_resolve_witness :
    GetLongUrl SelectFaults.none
        (demoTable ++ [{ short_url := "ccccc", long_url := "https://c.example",
                         created_at := 100000000000, expire_at := some 110000000000 }])
        110000000000 "ccccc" =
      ("https://c.example", none) ∧
    GetLongUrl SelectFaults.none
        (demoTable ++ [{ short_url := "ccccc", long_url := "https://c.example",
                         created_at := 100000000000, expire_at := some 110000000000 }])
        110000000001 "ccccc" =
      ("", none) :=
  have h := generate_then_resolve demoGen InsertFaults.none demoTable 100000000000
    "https://c.example" 10000000000
    { token := "ccccc", err := none,
      table := demoTable ++ [{ short_url := "ccccc", long_url := "https://c.example",
                               created_at := 100000000000,
                               expire_at := some 110000000000 }],
      generatorCalls := 3,
      inserts := candidatesFrom demoGen 100000000000 "https://c.example"
        (expireOf 100000000000 10000000000) 0 3 }
    (by decide) rfl [] (by simp)
  ⟨by simpa using h.1 110000000000 (by decide), by simpa using h.2.1 110000000001 (by decide)⟩

/-- C2: on a table whose tokens are distinct and without storage fault,
`GetLongUrl(now, token)` returns the stored `long_url` of the record with that
token when its `expire_at` is absent or `now ≤ expire_at` (so also at
`now = expire_at`), and returns the empty string with no error when
`now > expire_at` or no record has the token; for a record with a non-empty
`long_url` it returns that `long_url` if and only if the record is visible. -/
theorem GetLongUrl_visible_iff (table : List ShortLink) (now : Time) (token : String)
    (hkey : (table.map (fun x => x.short_url)).Nodup) :
    (∀ r ∈ table, r.short_url = token →
      ((r.expire_at = none ∨ ∃ e, r.expire_at = some e ∧ now ≤ e) →
        GetLongUrl SelectFaults.none table now token = (r.long_url, none)) ∧
      ((∃ e, r.expire_at = some e ∧ e < now) →
        GetLongUrl SelectFaults.none table now token = ("", none)) ∧
      (r.long_url ≠ "" →
        (GetLongUrl SelectFaults.none table now token = (r.long_url, none) ↔
          (r.expire_at = none ∨ ∃ e, r.expire_at = some e ∧ now ≤ e)))) ∧
    ((∀ r ∈ table, r.short_url ≠ token) →
      GetLongUrl SelectFaults.none table now token = ("", none)) := by
  refine ⟨?_, fun h => GetLongUrl_no_row _ _ _ (querySelect_absent _ _ h)⟩
  intro r hr htok
  subst htok
  have hget := GetLongUrl_single table now r.short_url r (querySelect_mem table r hkey hr)
  rw [hget]
  cases hexp : r.expire_at with
  | none => simp
  | some e =>
    by_cases hlt : e < now
    · have hle : ¬ now ≤ e := not_le.mpr hlt
      simp only [hlt, if_true, hle, reduceCtorEq, Option.some.injEq, exists_eq_left', false_or,
        false_implies, true_and, implies_true, Prod.mk.injEq, and_true, iff_false]
      intro hne heq
      exact hne heq.symm
    · have hle : now ≤ e := not_lt.mp hlt
      simp [hlt, hle]

theorem GetLongUrl_visible_iff_witness :
    GetLongUrl SelectFaults.none demoTable 50 "bbbbb" = ("https://b.example", none) ∧
    GetLongUrl SelectFaults.none demoTable 51 "bbbbb" = ("", none) ∧
    GetLongUrl SelectFaults.none demoTable 51 "zzzzz" = ("", none) :=
  have h := GetLongUrl_visible_iff demoTable
  ⟨((h 50 "bbbbb" (by decide)).1
      { short_url := "bbbbb", long_url := "https://b.example", created_at := 0,
        expire_at := some 50 } (by decide) rfl).1 (Or.inr ⟨50, rfl, by decide⟩),
   ((h 51 "bbbbb" (by decide)).1
      { short_url := "bbbbb", long_url := "https://b.example", created_at := 0,
        expire_at := some 50 } (by decide) rfl).2.1 ⟨50, rfl, by decide⟩,
   (h 51 "zzzzz" (by decide)).2 (by decide)⟩

/-! ## The retry loop: success after retries, exhaustion, abort -/

/-- C3: when the store rejects the first `K ≤ 5` inserts of a call as duplicate
keys and accepts the next one, `GenerateShortUrl` succeeds after exactly `K + 1`
generator calls and `K + 1` insert attempts, returns the candidate generated on
attempt `K + 1`, which is the row it inserted, and that token has the
configured length when the generator returns strings of the requested length. -/
theorem GenerateShortUrl_succeeds_after_duplicates (s : mysqlShortenerService)
    (faults : InsertFaults) (table : List ShortLink) (now : Time) (longUrl : String)
    (ttl : Duration) (K : Nat)
    (hprep : faults.prepare = none)
    (hK : K ≤ maxInsertTries)
    (hdup : ∀ i, i < K →
      isDuplicateKey (insertErr s faults table now longUrl (expireOf now ttl) i) = true)
    (hok : insertErr s faults table now longUrl (expireOf now ttl) K = none) :
    GenerateShortUrl s faults table now longUrl ttl =
      some { token := s.randomStringFn K s.shortUrlLength
             err := none
             table := table ++ [storedRow (candidate s now longUrl (expireOf now ttl) K)]
             generatorCalls := K + 1
             inserts := candidatesFrom s now longUrl (expireOf now ttl) 0 (K + 1) } ∧
    (candidatesFrom s now longUrl (expireOf now ttl) 0 (K + 1)).length = K + 1 ∧
    (candidatesFrom s now longUrl (expireOf now ttl) 0 (K + 1)).getLast? =
      some (candidate s now longUrl (expireOf now ttl) K) ∧
    (candidate s now longUrl (expireOf now ttl) K).short_url =
      s.randomStringFn K s.shortUrlLength ∧
    ((∀ i n, (s.randomStringFn i n).length = n.toNat) →
      (s.randomStringFn K s.shortUrlLength).length = s.shortUrlLength.toNat) := by
  refine ⟨?_, candidatesFrom_length _ _ _ _ _ _, ?_, rfl, fun h => h _ _⟩
  · unfold GenerateShortUrl
    rw [hprep]
    simp only
    obtain ⟨err1, st1, hrun, ht1, hg1, hi1, _⟩ :=
      loop_dups s faults now longUrl (expireOf now ttl) table K (maxInsertTries + 1 - K + 1) 0 none
        { token := "", err := none, table := table, generatorCalls := 0, inserts := [] }
        rfl rfl (by omega) (by simpa using hdup)
    simp only [List.length_nil, List.nil_append, Nat.zero_add] at hrun hg1 hi1
    have hlen : st1.inserts.length = K := by rw [hi1, candidatesFrom_length]
    have hfuel : maxInsertTries + 2 = maxInsertTries + 1 - K + 1 + K := by omega
    have hexp : (if ttl > 0 then some (now + ttl) else none) = expireOf now ttl := rfl
    rw [hexp, hfuel, hrun]
    rw [loop_ok_step s faults now longUrl (expireOf now ttl) _ K err1 st1 hK
      (by rw [ht1, hlen]; exact hok) (by rw [hg1, hlen])]
    rw [hlen, ht1, hg1, hi1, candidatesFrom_succ]
  · rw [← candidatesFrom_succ]
    simp

theorem GenerateShortUrl_succeeds_after_duplicates_witness :
    (∀ i, i < 2 → isDuplicateKey
      (insertErr demoGen InsertFaults.none demoTable 100000000000 "https://c.example"
        (expireOf 100000000000 10000000000) i) = true) ∧
    GenerateShortUrl demoGen InsertFaults.none demoTable 100000000000 "https://c.example"
        10000000000 =
      some { token := "ccccc"
             err := none
             table := demoTable ++ [{ short_url := "ccccc", long_url := "https://c.example",
                                      created_at := 100000000000,
                                      expire_at := some 110000000000 }]
             generatorCalls := 3
             inserts := candidatesFrom demoGen 100000000000 "https://c.example"
               (expireOf 100000000000 10000000000) 0 3 } :=
  ⟨by decide,
   (GenerateShortUrl_succeeds_after_duplicates demoGen InsertFaults.none demoTable 100000000000
      "https://c.example" 10000000000 2 rfl (by decide) (by decide) (by decide)).1⟩

/-- C4: when the store rejects every insert of a call as a duplicate key,
`GenerateShortUrl` makes exactly 6 insert attempts (`maxInsertTries + 1`, one
generator call each), leaves the table as it was, and returns no token and the
error "after 6 tries still have error: ..." wrapping the last duplicate error. -/
theorem GenerateShortUrl_exhausts_after_six (s : mysqlShortenerService)
    (faults : InsertFaults) (table : List ShortLink) (now : Time) (longUrl : String)
    (ttl : Duration)
    (hprep : faults.prepare = none)
    (hdup : ∀ i,
      isDuplicateKey (insertErr s faults table now longUrl (expireOf now ttl) i) = true) :
    GenerateShortUrl s faults table now longUrl ttl =
      some { token := ""
             err := some ("after 6 tries still have error: " ++
               errText (insertErr s faults table now longUrl (expireOf now ttl) 5))
             table := table
             generatorCalls := 6
             inserts := candidatesFrom s now longUrl (expireOf now ttl) 0 6 } ∧
    (candidatesFrom s now longUrl (expireOf now ttl) 0 6).length = maxInsertTries + 1 := by
  refine ⟨?_, candidatesFrom_length _ _ _ _ _ _⟩
  unfold GenerateShortUrl
  rw [hprep]
  simp only
  obtain ⟨err1, st1, hrun, ht1, hg1, hi1, herr1⟩ :=
    loop_dups s faults now longUrl (expireOf now ttl) table 6 1 0 none
      { token := "", err := none, table := table, generatorCalls := 0, inserts := [] }
      rfl rfl (by decide) (fun i _ => by simpa using hdup i)
  simp only [List.length_nil, List.nil_append, Nat.zero_add] at hrun hg1 hi1 herr1
  have hexp : (if ttl > 0 then some (now + ttl) else none) = expireOf now ttl := rfl
  have hfuel : maxInsertTries + 2 = 1 + 6 := rfl
  rw [hexp, hfuel, hrun, GenerateShortUrl.loop]
  have hgt : (6 : Nat) > maxInsertTries := by decide
  simp only [hgt, if_true]
  have h6 : toString (6 : Nat) = "6" := by decide
  rw [ht1, hg1, hi1, herr1, h6]
  simp

theorem GenerateShortUrl_exhausts_after_six_witness :
    GenerateShortUrl (constGen "aaaaa") InsertFaults.none demoTable 100 "https://c.example" 0 =
      some { token := ""
             err := some "after 6 tries still have error: Error 1062 (23000): Duplicate entry"
             table := demoTable
             generatorCalls := 6
             inserts := List.replicate 6
               { short_url := "aaaaa", long_url := "https://c.example", created_at := 100,
                 expire_at := none } } :=
  (GenerateShortUrl_exhausts_after_six (constGen "aaaaa") InsertFaults.none demoTable 100
    "https://c.example" 0 rfl (fun _ => rfl)).1

/-- C5: when an insert attempt of a call fails with an error that is not MySQL
error 1062, after any number `j ≤ 5` of duplicate-key retries, `GenerateShortUrl`
returns at once: no token, the error "cant insert into mysql: ...", the table
as it was, and no generator call or insert attempt beyond the `j + 1` made. -/
theorem GenerateShortUrl_aborts_on_storage_error (s : mysqlShortenerService)
    (faults : InsertFaults) (table : List ShortLink) (now : Time) (longUrl : String)
    (ttl : Duration) (j : Nat) (e : DbError)
    (hprep : faults.prepare = none)
    (hj : j ≤ maxInsertTries)
    (hdup : ∀ i, i < j →
      isDuplicateKey (insertErr s faults table now longUrl (expireOf now ttl) i) = true)
    (herr : insertErr s faults table now longUrl (expireOf now ttl) j = some e)
    (hnd : e.mysqlNumber ≠ some 1062) :
    GenerateShortUrl s faults table now longUrl ttl =
      some { token := ""
             err := some ("cant insert into mysql: " ++ e.text)
             table := table
             generatorCalls := j + 1
             inserts := candidatesFrom s now longUrl (expireOf now ttl) 0 (j + 1) } ∧
    (candidatesFrom s now longUrl (expireOf now ttl) 0 (j + 1)).length = j + 1 := by
  refine ⟨?_, candidatesFrom_length _ _ _ _ _ _⟩
  unfold GenerateShortUrl
  rw [hprep]
  simp only
  obtain ⟨err1, st1, hrun, ht1, hg1, hi1, _⟩ :=
    loop_dups s faults now longUrl (expireOf now ttl) table j (maxInsertTries + 1 - j + 1) 0 none
      { token := "", err := none, table := table, generatorCalls := 0, inserts := [] }
      rfl rfl (by omega) (by simpa using hdup)
  simp only [List.length_nil, List.nil_append, Nat.zero_add] at hrun hg1 hi1
  have hlen : st1.inserts.length = j := by rw [hi1, candidatesFrom_length]
  have hfuel : maxInsertTries + 2 = maxInsertTries + 1 - j + 1 + j := by omega
  have hexp : (if ttl > 0 then some (now + ttl) else none) = expireOf now ttl := rfl
  rw [hexp, hfuel, hrun]
  rw [loop_fatal_step s faults now longUrl (expireOf now ttl) _ j err1 st1 e hj
    (by rw [ht1, hlen]; exact herr) (by rw [hg1, hlen]) hnd]
  rw [hlen, ht1, hg1, hi1, candidatesFrom_succ]

theorem GenerateShortUrl_aborts_on_storage_error_witness :
    GenerateShortUrl demoGen demoFaults demoTable 100 "https://c.example" 10 =
      some { token := ""
             err := some "cant insert into mysql: invalid connection"
             table := demoTable
             generatorCalls := 3
             inserts := candidatesFrom demoGen 100 "https://c.example" (expireOf 100 10) 0 3 } :=
  (GenerateShortUrl_aborts_on_storage_error demoGen demoFaults demoTable 100
    "https://c.example" 10 2 { mysqlNumber := none, text := "invalid connection" }
    rfl (by decide) (by decide) (by decide) (by decide)).1

/-! ## The resolve route -/

theorem takeWhile_append_stop {α : Type} (p : α → Bool) (l r : List α) (a : α)
    (hl : ∀ x ∈ l, p x = true) (ha : p a = false) :
    (l ++ a :: r).takeWhile p = l := by
  induction l with
  | nil => simp [List.takeWhile, ha]
  | cons x xs ih =>
    have hx : p x = true := hl x (List.mem_cons_self _ _)
    have hxs : ∀ y ∈ xs, p y = true := fun y hy => hl y (List.mem_cons_of_mem _ hy)
    simp [List.takeWhile, hx, ih hxs]

/-- `path.Base` returns the last segment: what follows the last slash, when
that is not empty. -/
theorem pathBase_last_segment (dir tok : String) (hne : tok ≠ "")
    (hns : ∀ c ∈ tok.data, c ≠ '/') : pathBase (dir ++ "/" ++ tok) = tok := by
  have hdata : (dir ++ "/" ++ tok).data = dir.data ++ '/' :: tok.data := by
    simp [String.data_append]
  have htok : tok.data ≠ [] := fun h => hne (String.ext h)
  have hp : dir ++ "/" ++ tok ≠ "" := by
    intro h
    have := congrArg String.data h
    simp [hdata] at this
  have hrev : (dir ++ "/" ++ tok).data.reverse = tok.data.reverse ++ '/' :: dir.data.reverse := by
    simp [hdata]
  have hnsr : ∀ c ∈ tok.data.reverse, c ≠ '/' := fun c hc => hns c (List.mem_reverse.mp hc)
  have hdrop : (tok.data.reverse ++ '/' :: dir.data.reverse).dropWhile (fun c => c == '/') =
      tok.data.reverse ++ '/' :: dir.data.reverse := by
    cases hr : tok.data.reverse with
    | nil => exact absurd (List.reverse_eq_nil_iff.mp hr) htok
    | cons x xs =>
      have hx : (x == '/') = false := by
        simpa using hnsr x (by rw [hr]; exact List.mem_cons_self _ _)
      simp [List.dropWhile, hx]
  have htake : (tok.data.reverse ++ '/' :: dir.data.reverse).takeWhile (fun c => c != '/') =
      tok.data.reverse :=
    takeWhile_append_stop _ _ _ _ (fun c hc => by simpa using hnsr c hc) (by simp)
  unfold pathBase
  simp only [hp, if_false, hrev, hdrop, List.reverse_reverse, htake, htok]

/-- C7: `handleShortUrl` calls `GetLongUrl` once, with `path.Base` of the request
path as the token (the last path segment); on an error it answers 500 with the
generic status text only, on an empty result 404, and on a non-empty long URL a
301 redirect to that URL. -/
theorem handleShortUrl_routes (s : HttpServer) (ext : Externals) (r : Request) :
    (handleShortUrl s ext r).2 = [ServiceCall.getLongUrl ext.now (pathBase r.path)] ∧
    (∀ dir tok : String, tok ≠ "" → (∀ c ∈ tok.data, c ≠ '/') →
      r.path = dir ++ "/" ++ tok →
      (handleShortUrl s ext r).2 = [ServiceCall.getLongUrl ext.now tok]) ∧
    (∀ v e, s.shortener.GetLongUrl ext.now (pathBase r.path) = (v, some e) →
      (handleShortUrl s ext r).1 = Response.error "Internal Server Error" 500) ∧
    (s.shortener.GetLongUrl ext.now (pathBase r.path) = ("", none) →
      (handleShortUrl s ext r).1 = Response.error "Not Found" 404) ∧
    (∀ longUrl, longUrl ≠ "" →
      s.shortener.GetLongUrl ext.now (pathBase r.path) = (longUrl, none) →
      (handleShortUrl s ext r).1 = Response.redirect longUrl 301 ∧
      (handleShortUrl s ext r).1.status = 301) := by
  have hcalls : (handleShortUrl s ext r).2 =
      [ServiceCall.getLongUrl ext.now (pathBase r.path)] := by
    unfold handleShortUrl
    simp only
    split
    · rfl
    · split <;> rfl
  refine ⟨hcalls, ?_, ?_, ?_, ?_⟩
  · intro dir tok hne hns hpath
    rw [hcalls, hpath, pathBase_last_segment dir tok hne hns]
  · intro v e h
    unfold handleShortUrl
    simp only [h]
    rfl
  · intro h
    unfold handleShortUrl
    simp only [h, if_true]
    rfl
  · intro longUrl hne h
    unfold handleShortUrl
    simp only [h, hne, if_false]
    simp [Response.status]

theorem handleShortUrl_routes_witness :
    handleShortUrl demoServer demoExt
        { method := "GET", path := "/s/qwerty", contentType := "", form := [], body := .ok "" } =
      (Response.redirect "https://google.com/path" 301,
       [ServiceCall.getLongUrl 1000 "qwerty"]) ∧
    (handleShortUrl demoServer demoExt
        { method := "GET", path := "/s/other", contentType := "", form := [], body := .ok "" }).1 =
      Response.error "Not Found" 404 :=
  ⟨Prod.ext
    ((handleShortUrl_routes demoServer demoExt
      { method := "GET", path := "/s/qwerty", contentType := "", form := [],
        body := .ok "" }).2.2.2.2 "https://google.com/path" (by decide) (by decide)).1
    ((handleShortUrl_routes demoServer demoExt
      { method := "GET", path := "/s/qwerty", contentType := "", form := [],
        body := .ok "" }).2.1 "/s" "qwerty" (by decide) (by decide) (by decide)),
   (handleShortUrl_routes demoServer demoExt
      { method := "GET", path := "/s/other", contentType := "", form := [],
        body := .ok "" }).2.2.2.1 (by decide)⟩

/-! ## The create route -/

theorem digitsValue_none (cs : List Char) :
    ∀ acc : Nat, cs.all (fun c => decide ('0' ≤ c ∧ c ≤ '9')) = false →
      digitsValue cs acc = none := by
  induction cs with
  | nil => intro acc h; simp at h
  | cons c rest ih =>
    intro acc h
    unfold digitsValue
    by_cases hc : '0' ≤ c ∧ c ≤ '9'
    · simp only [hc, and_self, if_true]
      apply ih
      simpa [hc] using h
    · simp [hc]

/-- `strconv.Atoi` fails on what is not a decimal integer. -/
theorem strconvAtoi_not_decimal (s : String) (h : isDecimalInteger s = false) :
    strconvAtoi s = none := by
  unfold isDecimalInteger at h
  unfold strconvAtoi
  generalize hd : (match s.data with
    | '-' :: rest => rest
    | '+' :: rest => rest
    | cs => cs) = digits at h
  have hsnd : (match s.data with
    | '-' :: rest => (true, rest)
    | '+' :: rest => (false, rest)
    | cs => (false, cs)).2 = digits := by
    rw [← hd]
    split <;> rfl
  simp only [hsnd]
  cases digits with
  | nil => rfl
  | cons d ds =>
    have hall : (d :: ds).all (fun c => decide ('0' ≤ c ∧ c ≤ '9')) = false := by
      simpa using h
    simp only [digitsValue_none (d :: ds) 0 hall]

theorem string_length_pos (s : String) (h : s ≠ "") : s.length > 0 := by
  have hd : s.data ≠ [] := fun hnil => h (String.ext hnil)
  exact List.length_pos.mpr hd

/-- The form cases reject a non-empty `ttl_seconds` that `Atoi` refuses. -/
theorem readFormFields_bad_ttl (r : Request) (hne : formGet r.form "ttl_seconds" ≠ "")
    (hbad : strconvAtoi (formGet r.form "ttl_seconds") = none) :
    readFormFields r = .error (Response.error "ttl_seconds is invalid" 400) := by
  unfold readFormFields
  simp only [string_length_pos _ hne, if_true, hbad]

/-- The form cases pass on the `long_url` value unchanged. -/
theorem readFormFields_long_url (r : Request) (longUrl : String) (ttl : Duration)
    (h : readFormFields r = .ok (longUrl, ttl)) : longUrl = formGet r.form "long_url" := by
  unfold readFormFields at h
  simp only at h
  split at h
  · split at h
    · cases h
    · cases h; rfl
  · cases h; rfl

/-- A response written while reading the request ends the handler. -/
theorem handleGenerateUrl_read_error (s : HttpServer) (ext : Externals) (r : Request)
    (resp : Response) (h : readGenerateUrlRequest ext r = .error resp) :
    handleGenerateUrl s ext r = (resp, []) := by
  unfold handleGenerateUrl
  rw [h]

/-- The two checks after the `switch`: an empty long URL or a negative TTL is
answered with 400 before the service is called. -/
theorem handleGenerateUrl_rejects (s : HttpServer) (ext : Externals) (r : Request)
    (longUrl : String) (ttl : Duration)
    (h : readGenerateUrlRequest ext r = .ok (longUrl, ttl))
    (hbad : longUrl = "" ∨ ttl < 0) :
    (handleGenerateUrl s ext r).1.status = 400 ∧ (handleGenerateUrl s ext r).2 = [] := by
  unfold handleGenerateUrl
  rw [h]
  simp only
  by_cases hl : longUrl.length = 0
  · simp [hl, Response.status]
  · have hne : longUrl ≠ "" := fun he => hl (by rw [he]; rfl)
    have hneg : ttl < 0 := hbad.resolve_left hne
    simp [hl, hneg, Response.status]

/-- The form cases end in 400 without a service call when `long_url` is empty
or `ttl_seconds` is not empty and not a decimal integer. -/
theorem handleGenerateUrl_form_rejects (s : HttpServer) (ext : Externals) (r : Request)
    (hread : readGenerateUrlRequest ext r = readFormFields r)
    (hbad : formGet r.form "long_url" = "" ∨
      (formGet r.form "ttl_seconds" ≠ "" ∧
        isDecimalInteger (formGet r.form "ttl_seconds") = false)) :
    (handleGenerateUrl s ext r).1.status = 400 ∧ (handleGenerateUrl s ext r).2 = [] := by
  by_cases httl : formGet r.form "ttl_seconds" ≠ "" ∧
      isDecimalInteger (formGet r.form "ttl_seconds") = false
  · have := readFormFields_bad_ttl r httl.1 (strconvAtoi_not_decimal _ httl.2)
    rw [handleGenerateUrl_read_error s ext r _ (hread.trans this)]
    exact ⟨rfl, rfl⟩
  · have hlong : formGet r.form "long_url" = "" := hbad.resolve_right httl
    cases hres : readFormFields r with
    | error resp =>
      rw [handleGenerateUrl_read_error s ext r _ (hread.trans hres)]
      refine ⟨?_, rfl⟩
      unfold readFormFields at hres
      simp only at hres
      split at hres
      · split at hres
        · cases hres; rfl
        · cases hres
      · cases hres
    | ok v =>
      obtain ⟨longUrl, ttl⟩ := v
      have hl := readFormFields_long_url r longUrl ttl hres
      exact handleGenerateUrl_rejects s ext r longUrl ttl (hread.trans hres)
        (Or.inl (hl.trans hlong))

/-- Down to -9223372036 seconds the product with `time.Second` does not
overflow, and a negative number of seconds gives a negative duration. -/
theorem secondsToDuration_neg (n : Int) (hlo : -9223372036 ≤ n) (hneg : n < 0) :
    secondsToDuration n < 0 := by
  have h1 : wrapInt64 n = n := by
    unfold wrapInt64
    rw [Int.emod_eq_of_lt (by omega) (by omega)]
    omega
  have h2 : wrapInt64 (1000000000 * n) = 1000000000 * n := by
    unfold wrapInt64
    rw [Int.emod_eq_of_lt (by omega) (by omega)]
    omega
  show wrapInt64 (1000000000 * wrapInt64 n) < (0 : Int)
  rw [h1, h2]
  omega

/-- C6 (counterexample): on the empty table, `GenerateShortUrl` with an empty
`long_url` and the negative `ttl` of -1 returns a token without error and
inserts a record, which never expires. -/
theorem GenerateShortUrl_does_not_validate :
    GenerateShortUrl (constGen "abcde") InsertFaults.none [] 100000000000 "" (-1) =
      some { token := "abcde"
             err := none
             table := [{ short_url := "abcde", long_url := "", created_at := 100000000000,
                         expire_at := none }]
             generatorCalls := 1
             inserts := [{ short_url := "abcde", long_url := "", created_at := 100000000000,
                           expire_at := none }] } := by
  decide

/-- C6 (amended): the validation sits in the request handler: whenever the long
URL read from the request is empty or the TTL computed from it is negative,
`handleGenerateUrl` answers 400 and does not call `GenerateShortUrl`. -/
theorem handleGenerateUrl_validates (s : HttpServer) (ext : Externals) (r : Request)
    (longUrl : String) (ttl : Duration)
    (hread : readGenerateUrlRequest ext r = .ok (longUrl, ttl))
    (hbad : longUrl = "" ∨ ttl < 0) :
    (handleGenerateUrl s ext r).1.status = 400 ∧ (handleGenerateUrl s ext r).2 = [] :=
  handleGenerateUrl_rejects s ext r longUrl ttl hread hbad

theorem handleGenerateUrl_validates_witness :
    (handleGenerateUrl demoServer demoExt
      (formRequest [("long_url", "https://example.com/page"), ("ttl_seconds", "-1")])).1.status
        = 400 ∧
    (handleGenerateUrl demoServer demoExt
      (formRequest [("long_url", "https://example.com/page"), ("ttl_seconds", "-1")])).2 = [] :=
  handleGenerateUrl_validates demoServer demoExt
    (formRequest [("long_url", "https://example.com/page"), ("ttl_seconds", "-1")])
    "https://example.com/page" (-1000000000) (by decide) (Or.inr (by decide))

/-- C8 (failing input): for the form `ttl_seconds=-9223372037` the product with
`time.Second` wraps around to 9223372036709551616 ns, the check `ttl < 0` does
not fire, and the handler calls `GenerateShortUrl` with that TTL and answers 200. -/
theorem handleGenerateUrl_negative_ttl_wraps :
    strconvAtoi "-9223372037" = some (-9223372037) ∧
    secondsToDuration (-9223372037) = 9223372036709551616 ∧
    handleGenerateUrl demoServer demoExt
        (formRequest [("long_url", "https://example.com/page"),
                      ("ttl_seconds", "-9223372037")]) =
      (Response.json 200 "\x7b\"short_url\": \"https://example.com/abcde\"\x7d",
       [ServiceCall.generateShortUrl 1000 "https://example.com/page" 9223372036709551616]) := by
  decide

/-- An error saved by the decoder stays. -/
theorem decodeMember_keeps_error (st : GenerateUrlRequest × Option String)
    (m : String × JsonValue) (h : st.2.isSome = true) :
    (decodeMember st m).2.isSome = true := by
  obtain ⟨e, he⟩ := Option.isSome_iff_exists.mp h
  unfold decodeMember
  split
  · exact h
  · split <;> simp [saveError, he]
  · split
    · exact h
    · split <;> simp [saveError, he]
    · simp [saveError, he]

theorem decode_keeps_error (members : List (String × JsonValue)) :
    ∀ st : GenerateUrlRequest × Option String, st.2.isSome = true →
      (members.foldl decodeMember st).2.isSome = true := by
  induction members with
  | nil => intro st h; exact h
  | cons m rest ih =>
    intro st h
    exact ih _ (decodeMember_keeps_error st m h)

/-- A value under `ttl_seconds` that is neither `null` nor a number literal in
decimal integer form is a type error. -/
theorem decodeMember_bad_ttl (st : GenerateUrlRequest × Option String)
    (m : String × JsonValue) (hkey : structField m.1 = some StructField.TtlSeconds)
    (hnull : m.2 ≠ JsonValue.null)
    (hnum : ∀ literal, m.2 = JsonValue.number literal → isDecimalInteger literal = false) :
    (decodeMember st m).2.isSome = true := by
  unfold decodeMember
  rw [hkey]
  simp only
  cases hv : m.2 with
  | null => exact absurd hv hnull
  | number literal =>
    simp only [strconvAtoi_not_decimal literal (hnum literal hv)]
    cases st.2 <;> rfl
  | bool b => cases st.2 <;> rfl
  | string v => cases st.2 <;> rfl
  | array => cases st.2 <;> rfl
  | object => cases st.2 <;> rfl

theorem decode_bad_ttl (members : List (String × JsonValue)) :
    ∀ st : GenerateUrlRequest × Option String,
      (∃ m ∈ members, structField m.1 = some StructField.TtlSeconds ∧
        m.2 ≠ JsonValue.null ∧
        ∀ literal, m.2 = JsonValue.number literal → isDecimalInteger literal = false) →
      (members.foldl decodeMember st).2.isSome = true := by
  induction members with
  | nil => intro st h; obtain ⟨m, hm, _⟩ := h; cases hm
  | cons a rest ih =>
    intro st h
    obtain ⟨m, hm, hkey, hnull, hnum⟩ := h
    rcases List.mem_cons.mp hm with hma | hmr
    · subst hma
      exact decode_keeps_error rest _ (decodeMember_bad_ttl st m hkey hnull hnum)
    · exact ih _ ⟨m, hmr, hkey, hnull, hnum⟩

/-- A member that brings no non-empty string under `long_url` leaves an empty
`LongUrl` empty. -/
theorem decodeMember_long_url_empty (st : GenerateUrlRequest × Option String)
    (m : String × JsonValue) (hst : st.1.LongUrl = "")
    (hm : structField m.1 = some StructField.LongUrl → ∀ v, m.2 = JsonValue.string v → v = "") :
    (decodeMember st m).1.LongUrl = "" := by
  unfold decodeMember
  cases hkey : structField m.1 with
  | none => exact hst
  | some f =>
    cases f with
    | LongUrl =>
      simp only
      cases hv : m.2 with
      | string v => exact hm hkey v hv
      | null => exact hst
      | bool b => exact hst
      | number literal => exact hst
      | array => exact hst
      | object => exact hst
    | TtlSeconds =>
      simp only
      cases m.2 with
      | number literal =>
        simp only
        cases strconvAtoi literal <;> exact hst
      | null => exact hst
      | bool b => exact hst
      | string v => exact hst
      | array => exact hst
      | object => exact hst

theorem decode_long_url_empty (members : List (String × JsonValue)) :
    ∀ st : GenerateUrlRequest × Option String, st.1.LongUrl = "" →
      (∀ m ∈ members, structField m.1 = some StructField.LongUrl →
        ∀ v, m.2 = JsonValue.string v → v = "") →
      (members.foldl decodeMember st).1.LongUrl = "" := by
  induction members with
  | nil => intro st h _; exact h
  | cons a rest ih =>
    intro st hst h
    exact ih _ (decodeMember_long_url_empty st a hst (h a (List.mem_cons_self _ _)))
      (fun m hm => h m (List.mem_cons_of_mem _ hm))

/-- `json.Unmarshal` of an object with a bad `ttl_seconds` returns an error. -/
theorem jsonUnmarshal_bad_ttl (jsonParse : String → Option JsonDocument) (body : String)
    (members : List (String × JsonValue))
    (hparse : jsonParse body = some (JsonDocument.object members))
    (hbad : ∃ m ∈ members, structField m.1 = some StructField.TtlSeconds ∧
      m.2 ≠ JsonValue.null ∧
      ∀ literal, m.2 = JsonValue.number literal → isDecimalInteger literal = false) :
    ∃ e, jsonUnmarshal jsonParse body = .error e := by
  unfold jsonUnmarshal
  rw [hparse]
  simp only
  have h := decode_bad_ttl members ({ LongUrl := "", TtlSeconds := 0 }, none) hbad
  obtain ⟨e, he⟩ := Option.isSome_iff_exists.mp h
  exact ⟨e, by rw [he]⟩

/-- `json.Unmarshal` of an object without a non-empty string under `long_url`
returns an error or an empty `LongUrl`. -/
theorem jsonUnmarshal_long_url_empty (jsonParse : String → Option JsonDocument)
    (body : String) (members : List (String × JsonValue))
    (hparse : jsonParse body = some (JsonDocument.object members))
    (hempty : ∀ m ∈ members, structField m.1 = some StructField.LongUrl →
      ∀ v, m.2 = JsonValue.string v → v = "") :
    (∃ e, jsonUnmarshal jsonParse body = .error e) ∨
    (∃ q, jsonUnmarshal jsonParse body = .ok q ∧ q.LongUrl = "") := by
  unfold jsonUnmarshal
  rw [hparse]
  simp only
  have h := decode_long_url_empty members ({ LongUrl := "", TtlSeconds := 0 }, none) rfl hempty
  cases hres : (members.foldl decodeMember ({ LongUrl := "", TtlSeconds := 0 }, none)).2 with
  | some e => exact Or.inl ⟨e, rfl⟩
  | none => exact Or.inr ⟨_, rfl, h⟩

/-- `json.Unmarshal` of a JSON value that is not an object returns an error or
leaves `LongUrl` empty. -/
theorem jsonUnmarshal_not_object (jsonParse : String → Option JsonDocument)
    (body : String) (v : JsonValue) (hparse : jsonParse body = some (JsonDocument.other v)) :
    (∃ e, jsonUnmarshal jsonParse body = .error e) ∨
    (∃ q, jsonUnmarshal jsonParse body = .ok q ∧ q.LongUrl = "") := by
  unfold jsonUnmarshal
  rw [hparse]
  cases v with
  | null => exact Or.inr ⟨_, rfl, rfl⟩
  | bool b => exact Or.inl ⟨_, rfl⟩
  | number literal => exact Or.inl ⟨_, rfl⟩
  | string x => exact Or.inl ⟨_, rfl⟩
  | array => exact Or.inl ⟨_, rfl⟩
  | object => exact Or.inl ⟨_, rfl⟩

/-- The JSON case ends in 400 without a service call when `json.Unmarshal`
returns an error or an empty `LongUrl`. -/
theorem handleGenerateUrl_json_rejects (s : HttpServer) (ext : Externals) (r : Request)
    (body : String)
    (hct : r.contentType ≠ "application/x-www-form-urlencoded" ∧
      stringsContains r.contentType "multipart/form-data" = false)
    (hbody : r.body = .ok body)
    (hbad : (∃ e, jsonUnmarshal ext.jsonParse body = .error e) ∨
      (∃ q, jsonUnmarshal ext.jsonParse body = .ok q ∧ q.LongUrl = "")) :
    (handleGenerateUrl s ext r).1.status = 400 ∧ (handleGenerateUrl s ext r).2 = [] := by
  have hread : readGenerateUrlRequest ext r =
      (match jsonUnmarshal ext.jsonParse body with
       | .error e => .error (Response.error ("cant parse request body: " ++ e) 400)
       | .ok parsedBody =>
         .ok (parsedBody.LongUrl, secondsToDuration parsedBody.TtlSeconds)) := by
    unfold readGenerateUrlRequest
    simp [hct.1, hct.2, hbody]
  rcases hbad with ⟨e, he⟩ | ⟨q, hq, hl⟩
  · rw [he] at hread
    rw [handleGenerateUrl_read_error s ext r _ hread]
    exact ⟨rfl, rfl⟩
  · rw [hq] at hread
    exact handleGenerateUrl_rejects s ext r _ _ hread (Or.inl hl)

/-- C9 (counterexample): a form request whose `ttl_seconds` field is present
with an empty value, which is not a decimal integer, is answered 200 and
`GenerateShortUrl` is called, with a TTL of 0; so is a JSON request whose
`ttl_seconds` field is present with the value `null`. -/
theorem ServeHTTP_empty_ttl_accepted :
    ("ttl_seconds", "") ∈
      (formRequest [("long_url", "https://example.com/page"), ("ttl_seconds", "")]).form ∧
    isDecimalInteger "" = false ∧
    ServeHTTP demoServer demoExt
        (formRequest [("long_url", "https://example.com/page"), ("ttl_seconds", "")]) =
      (Response.json 200 "\x7b\"short_url\": \"https://example.com/abcde\"\x7d",
       [ServiceCall.generateShortUrl 1000 "https://example.com/page" 0]) ∧
    demoJsonExt.jsonParse nullTtlBody =
      some (JsonDocument.object [("long_url", JsonValue.string "https://example.com/page"),
                                 ("ttl_seconds", JsonValue.null)]) ∧
    ServeHTTP demoServer demoJsonExt (jsonRequest nullTtlBody) =
      (Response.json 200 "\x7b\"short_url\": \"https://example.com/abcde\"\x7d",
       [ServiceCall.generateShortUrl 1000 "https://example.com/page" 0]) := by
  decide

/-- C9 (amended): for every PUT or POST request to `/api/v1/generate_short_url`,
in each of the three body encodings, the response is 400 and `GenerateShortUrl`
is not called when the `long_url` field is missing or empty, or the
`ttl_seconds` field is present and not a decimal integer, except that a
`ttl_seconds` that is present but empty (form, multipart) or `null` (JSON)
counts as absent. With a JSON body this also holds when the body cannot be
read, is not JSON, or is not an object. -/
theorem ServeHTTP_create_bad_request (s : HttpServer) (ext : Externals) (r : Request)
    (hpath : r.path = "/api/v1/generate_short_url")
    (hmethod : r.method = "PUT" ∨ r.method = "POST") :
    ((r.contentType = "application/x-www-form-urlencoded" ∨
        stringsContains r.contentType "multipart/form-data" = true) →
      (formGet r.form "long_url" = "" ∨
        (formGet r.form "ttl_seconds" ≠ "" ∧
          isDecimalInteger (formGet r.form "ttl_seconds") = false)) →
      (ServeHTTP s ext r).1.status = 400 ∧ (ServeHTTP s ext r).2 = []) ∧
    ((r.contentType ≠ "application/x-www-form-urlencoded" ∧
        stringsContains r.contentType "multipart/form-data" = false) →
      ((∃ e, r.body = .error e) ∨
        (∃ b, r.body = .ok b ∧ ext.jsonParse b = none) ∨
        (∃ b v, r.body = .ok b ∧ ext.jsonParse b = some (JsonDocument.other v)) ∨
        (∃ b members, r.body = .ok b ∧
          ext.jsonParse b = some (JsonDocument.object members) ∧
          ((∀ m ∈ members, structField m.1 = some StructField.LongUrl →
              ∀ v, m.2 = JsonValue.string v → v = "") ∨
            (∃ m ∈ members, structField m.1 = some StructField.TtlSeconds ∧
              m.2 ≠ JsonValue.null ∧
              ∀ literal, m.2 = JsonValue.number literal →
                isDecimalInteger literal = false)))) →
      (ServeHTTP s ext r).1.status = 400 ∧ (ServeHTTP s ext r).2 = []) := by
  have hserve : ServeHTTP s ext r = handleGenerateUrl s ext r := by
    unfold ServeHTTP
    rcases hmethod with hm | hm <;> simp [hpath, hm]
  rw [hserve]
  constructor
  · intro hct hbad
    apply handleGenerateUrl_form_rejects s ext r _ hbad
    unfold readGenerateUrlRequest
    rcases hct with hct | hct
    · simp only [hct, if_true]
    · by_cases h1 : r.contentType = "application/x-www-form-urlencoded"
      · simp only [h1, if_true]
      · simp only [h1, if_false, hct, if_true]
  · intro hct hbad
    rcases hbad with ⟨e, hb⟩ | ⟨b, hb, hp⟩ | ⟨b, v, hb, hp⟩ | ⟨b, members, hb, hp, hm⟩
    · have hread : readGenerateUrlRequest ext r =
          .error (Response.error (statusText 400) 400) := by
        unfold readGenerateUrlRequest
        simp [hct.1, hct.2, hb]
      rw [handleGenerateUrl_read_error s ext r _ hread]
      exact ⟨rfl, rfl⟩
    · apply handleGenerateUrl_json_rejects s ext r b hct hb
      refine Or.inl ⟨"invalid character looking for beginning of value", ?_⟩
      unfold jsonUnmarshal
      rw [hp]
    · exact handleGenerateUrl_json_rejects s ext r b hct hb
        (jsonUnmarshal_not_object ext.jsonParse b v hp)
    · rcases hm with hempty | httl
      · exact handleGenerateUrl_json_rejects s ext r b hct hb
          (jsonUnmarshal_long_url_empty ext.jsonParse b members hp hempty)
      · exact handleGenerateUrl_json_rejects s ext r b hct hb
          (Or.inl (jsonUnmarshal_bad_ttl ext.jsonParse b members hp httl))

theorem ServeHTTP_create_bad_request_witness :
    ((ServeHTTP demoServer demoExt
      (formRequest [("long_url", "https://example.com/page"), ("ttl_seconds", "1h")])).1.status
        = 400 ∧
    (ServeHTTP demoServer demoExt
      (formRequest [("long_url", "https://example.com/page"), ("ttl_seconds", "1h")])).2 = []) ∧
    ((ServeHTTP demoServer demoJsonExt (jsonRequest stringTtlBody)).1.status = 400 ∧
    (ServeHTTP demoServer demoJsonExt (jsonRequest stringTtlBody)).2 = []) :=
  ⟨(ServeHTTP_create_bad_request demoServer demoExt
      (formRequest [("long_url", "https://example.com/page"), ("ttl_seconds", "1h")])
      rfl (Or.inr rfl)).1 (Or.inl rfl) (Or.inr ⟨by decide, by decide⟩),
   (ServeHTTP_create_bad_request demoServer demoJsonExt (jsonRequest stringTtlBody)
      rfl (Or.inr rfl)).2 ⟨by decide, by decide⟩
      (Or.inr (Or.inr (Or.inr ⟨stringTtlBody,
        [("long_url", JsonValue.string "https://example.com/page"),
         ("ttl_seconds", JsonValue.string "1h")],
        rfl, by decide,
        Or.inr ⟨("ttl_seconds", JsonValue.string "1h"), by decide, by decide, by decide,
          fun _ h => by cases h⟩⟩)))⟩

/-! ## Construction of the handler -/

/-- C10 (failing input): for the path "///" `NewHttpServer` succeeds and the
stored path is "//": the single pass of `ReplaceAll` leaves two slashes in a row. -/
theorem NewHttpServer_keeps_double_slash :
    ∃ h, NewHttpServer fakeShortener "https" "example.com" "///" = .ok h ∧
      h.shortUrlPath = "//" ∧ stringsContains h.shortUrlPath "//" = true :=
  ⟨_, rfl, by decide, by decide⟩

/-! ## Records are written once -/

/-- A select leaves the table as it was. -/
theorem execSelect_table (fault : Option DbError) (table : List ShortLink) (shortUrl : String) :
    (execSelect fault table shortUrl).2 = table := by
  unfold execSelect
  cases fault <;> rfl

/-- The threaded lookup leaves the table as it was. -/
theorem GetLongUrl_run_table (faults : SelectFaults) (table : List ShortLink) (now : Time)
    (shortUrl : String) : (GetLongUrl.run faults table now shortUrl).table = table := by
  unfold GetLongUrl.run
  split
  · rfl
  · simp only [execSelect_table]
    split
    · rfl
    · split
      · rfl
      · split
        · split <;> rfl
        · rfl

/-- The threaded lookup returns the two values of `GetLongUrl`. -/
theorem GetLongUrl_run_value (faults : SelectFaults) (table : List ShortLink) (now : Time)
    (shortUrl : String) :
    ((GetLongUrl.run faults table now shortUrl).longUrl,
      (GetLongUrl.run faults table now shortUrl).err) =
      GetLongUrl faults table now shortUrl := by
  unfold GetLongUrl.run GetLongUrl execSelect
  cases faults.prepare with
  | some e => rfl
  | none =>
    cases faults.query with
    | some e => rfl
    | none =>
      simp only
      cases scanRows faults.scan (querySelect table shortUrl) 0 ("", none) with
      | error msg => rfl
      | ok v =>
        obtain ⟨longUrl, expireAt⟩ := v
        cases expireAt with
        | none => rfl
        | some e =>
          simp only
          split <;> rfl

/-- A run of the loop that ends with an error leaves the table as it was and
returns no token. -/
theorem loop_failure (s : mysqlShortenerService) (faults : InsertFaults) (now : Time)
    (longUrl : String) (expire : Option Time) (fuel : Nat) :
    ∀ (tries : Nat) (err : Option DbError) (st run : GenerateRun),
      GenerateShortUrl.loop s faults now longUrl expire fuel tries err st = some run →
      run.err ≠ none →
      run.table = st.table ∧ run.token = "" := by
  induction fuel with
  | zero =>
    intro tries err st run h
    simp [GenerateShortUrl.loop] at h
  | succ fuel ih =>
    intro tries err st run h hbad
    rw [GenerateShortUrl.loop] at h
    by_cases ht : tries > maxInsertTries
    · simp only [ht, if_true, Option.some.injEq] at h
      subst h
      exact ⟨rfl, rfl⟩
    · simp only [ht, if_false] at h
      cases hres : (execInsert (faults.exec st.inserts.length) st.table
          { short_url := s.randomStringFn st.generatorCalls s.shortUrlLength,
            long_url := longUrl, created_at := now, expire_at := expire }).1 with
      | none =>
        rw [hres] at h
        simp only [Option.some.injEq] at h
        subst h
        simp at hbad
      | some e =>
        rw [hres] at h
        have htab := execInsert_err_table _ _ _ _ hres
        by_cases hd : e.mysqlNumber = some 1062
        · simp only [hd, if_true] at h
          have := ih _ _ _ _ h hbad
          simpa [htab] using this
        · simp only [hd, if_false, Option.some.injEq] at h
          subst h
          exact ⟨htab, rfl⟩

/-- A `GenerateShortUrl` that returns an error leaves the table as it was. -/
theorem GenerateShortUrl_failure (s : mysqlShortenerService) (faults : InsertFaults)
    (table : List ShortLink) (now : Time) (longUrl : String) (ttl : Duration)
    (run : GenerateRun) (h : GenerateShortUrl s faults table now longUrl ttl = some run)
    (hbad : run.err ≠ none) : run.table = table ∧ run.token = "" := by
  unfold GenerateShortUrl at h
  cases hp : faults.prepare with
  | some e =>
    rw [hp] at h
    simp only [Option.some.injEq] at h
    subst h
    exact ⟨rfl, rfl⟩
  | none =>
    rw [hp] at h
    exact loop_failure s faults now longUrl _ _ 0 none _ run h hbad

/-- A select by a key other than that of an appended row sees the table as before. -/
theorem querySelect_other (table : List ShortLink) (row : ShortLink) (key : String)
    (hne : row.short_url ≠ key) :
    querySelect (table ++ [row]) key = querySelect table key := by
  unfold querySelect
  simp [List.filter_append, List.filter_cons, hne]

/-- C11 (counterexample): generated at `now` = 1.2 s with a `ttl` of 1 s, the one
record added has `created_at` = 1 s and `expire_at` = 2 s, not `now` = 1.2 s and
`now + ttl` = 2.2 s. -/
theorem record_keeps_whole_seconds :
    GenerateShortUrl (constGen "abcde") InsertFaults.none demoTable 1200000000
        "https://example.com/page" 1000000000 =
      some { token := "abcde"
             err := none
             table := demoTable ++
               [{ short_url := "abcde", long_url := "https://example.com/page",
                  created_at := 1000000000, expire_at := some 2000000000 }]
             generatorCalls := 1
             inserts := [{ short_url := "abcde", long_url := "https://example.com/page",
                           created_at := 1200000000, expire_at := some 2200000000 }] } ∧
    (1000000000 : Time) ≠ 1200000000 ∧
    (some 2000000000 : Option Time) ≠ some (1200000000 + 1000000000) := by
  decide

/-- C11 (amended): records are written once. `GetLongUrl` leaves the table as it
was at every time, so also for an expired record and under any fault.
`GenerateShortUrl` always returns, and the table it leaves starts with the table
it found, so every earlier record, also one under a token it collided with, is
still there unchanged and a select by its token gives what it gave before; on
success the table has grown by exactly the one record (returned token,
long_url, created_at = now to the nearest second, expire_at = now + ttl to the
nearest second if ttl > 0, else absent), under a token that was not there; on
any error the table is as it was and no token comes back. -/
theorem records_written_once (s : mysqlShortenerService) (faults : InsertFaults)
    (sfaults : SelectFaults) (table : List ShortLink) (now : Time) (longUrl : String)
    (ttl : Duration) (t : Time) (token : String) :
    (GetLongUrl.run sfaults table t token).table = table ∧
    ∃ run, GenerateShortUrl s faults table now longUrl ttl = some run ∧
      table <+: run.table ∧
      (∀ r ∈ table, querySelect run.table r.short_url = querySelect table r.short_url) ∧
      (run.err = none →
        run.table = table ++ [{ short_url := run.token, long_url := longUrl,
                                created_at := datetime now,
                                expire_at := if ttl > 0 then some (datetime (now + ttl))
                                             else none }] ∧
        table.any (fun r => r.short_url == run.token) = false) ∧
      (run.err ≠ none → run.table = table ∧ run.token = "") := by
  refine ⟨GetLongUrl_run_table sfaults table t token, ?_⟩
  obtain ⟨run, hrun⟩ := GenerateShortUrl_returns s faults table now longUrl ttl
  refine ⟨run, hrun, ?_⟩
  by_cases hok : run.err = none
  · obtain ⟨htab, hkey⟩ := GenerateShortUrl_success s faults table now longUrl ttl run hrun hok
    have hrow : storedRow
          { short_url := run.token, long_url := longUrl, created_at := now,
            expire_at := expireOf now ttl } =
        { short_url := run.token, long_url := longUrl, created_at := datetime now,
          expire_at := if ttl > 0 then some (datetime (now + ttl)) else none } := by
      unfold storedRow expireOf
      by_cases hpos : ttl > 0 <;> simp [hpos]
    rw [hrow] at htab
    refine ⟨?_, ?_, fun _ => ⟨htab, hkey⟩, fun hbad => absurd hok hbad⟩
    · rw [htab]
      exact List.prefix_append _ _
    · intro r hr
      rw [htab]
      apply querySelect_other
      intro heq
      have := List.any_eq_false.mp hkey r hr
      simp only [beq_iff_eq] at this
      exact this heq.symm
  · obtain ⟨htab, htok⟩ := GenerateShortUrl_failure s faults table now longUrl ttl run hrun hok
    refine ⟨?_, ?_, fun h => absurd h hok, fun _ => ⟨htab, htok⟩⟩
    · rw [htab]
    · intro r _
      rw [htab]

theorem records_written_once_witness :
    (GetLongUrl.run SelectFaults.none demoTable 51 "bbbbb").table = demoTable ∧
    (GetLongUrl.run SelectFaults.none demoTable 51 "bbbbb").longUrl = "" ∧
    ∃ run, GenerateShortUrl demoGen InsertFaults.none demoTable 1200000000 "https://c.example"
        1000000000 = some run ∧ demoTable <+: run.table ∧
      querySelect run.table "aaaaa" = querySelect demoTable "aaaaa" ∧
      (run.err = none →
        run.table = demoTable ++ [{ short_url := run.token, long_url := "https://c.example",
                                    created_at := 1000000000,
                                    expire_at := some 2000000000 }]) :=
  have h := records_written_once demoGen InsertFaults.none SelectFaults.none demoTable
    1200000000 "https://c.example" 1000000000 51 "bbbbb"
  ⟨h.1, by decide, h.2.imp (fun _ hr =>
    ⟨hr.1, hr.2.1, hr.2.2.1
      { short_url := "aaaaa", long_url := "https://a.example", created_at := 0,
        expire_at := none } (by decide), fun hok => (hr.2.2.2.1 hok).1⟩)⟩

end Shortener
